import Mathlib

/-!
Shallow embedding of the database access layer of the LvJing agent project:
the SQL query builder / condition compiler (`database/query_builder.py`) and
the connection management module (`database/connection.py`), together with
theorems settling the specification claims about them.
-/

namespace LvJing

/-- Model of the Python runtime values that flow through the query builder
(the `Any`-typed `value` of a condition, the elements of field lists, and
the `count` / `offset` arguments of `limit`). -/
inductive PyVal where
  | vInt (n : Int)
  | vStr (s : String)
  | vNone
  | vList (xs : List PyVal)
  | vTuple (xs : List PyVal)

/-- Python `str.upper` restricted to ASCII case mapping (every operator,
connector and keyword handled by the builder is ASCII). -/
def pyUpper (s : String) : String := ⟨s.data.map Char.toUpper⟩

/-- Python `str.strip()` (ASCII whitespace) — structurally computable model of
removing leading and trailing whitespace. -/
def pyStrip (s : String) : String :=
  ⟨((s.data.dropWhile Char.isWhitespace).reverse.dropWhile Char.isWhitespace).reverse⟩

/-- Python `sep.join(parts)`. -/
def joinSep (sep : String) : List String → String
  | [] => ""
  | [x] => x
  | x :: y :: xs => x ++ sep ++ joinSep sep (y :: xs)

/-- Concatenation of a list of strings (used to state flattenings of joins). -/
def strConcat : List String → String
  | [] => ""
  | x :: xs => x ++ strConcat xs

/-- Python substring containment `pat in l` on character lists. -/
def hasSubList : List Char → List Char → Bool
  | l@(_ :: rest), pat => pat.isPrefixOf l || hasSubList rest pat
  | [], pat => pat.isEmpty

/-- The dangerous keyword list of `QueryBuilder.select`. -/
def dangerous_keywords : List String :=
  [";", "--", "/*", "*/", "DROP", "DELETE", "INSERT", "UPDATE", "ALTER", "CREATE"]

/-- `any(keyword in field_upper for keyword in dangerous_keywords)`. -/
def hasDangerousKeyword (field : String) : Bool :=
  dangerous_keywords.any fun kw => hasSubList (pyUpper field).data kw.data

/-- `QueryCondition` dataclass of `query_builder.py`. -/
structure QueryCondition where
  field : String
  operator : String
  value : PyVal
  logic : String := "AND"

/-- `isinstance(value, (list, tuple))`, returning the elements on success. -/
def asSeq : PyVal → Option (List PyVal)
  | .vList xs => some xs
  | .vTuple xs => some xs
  | _ => none

/-- The per-condition body of the loop in `build_where_clause`: one condition
compiled to a clause fragment and the parameters it contributes.  A raised
`ValueError` is modelled as `Except.error`. -/
def compile_condition (cond : QueryCondition) : Except String (String × List PyVal) :=
  if pyUpper cond.operator = "IS NULL" ∨ pyUpper cond.operator = "IS NOT NULL" then
    .ok (cond.field ++ " " ++ pyUpper cond.operator, [])
  else if pyUpper cond.operator = "IN" then
    match asSeq cond.value with
    | some xs =>
        .ok (cond.field ++ " IN (" ++ joinSep ", " (List.replicate xs.length "%s") ++ ")", xs)
    | none => .error "IN 操作符的值必须是列表或元组"
  else if pyUpper cond.operator = "NOT IN" then
    match asSeq cond.value with
    | some xs =>
        .ok (cond.field ++ " NOT IN (" ++ joinSep ", " (List.replicate xs.length "%s") ++ ")", xs)
    | none => .error "NOT IN 操作符的值必须是列表或元组"
  else if pyUpper cond.operator = "BETWEEN" then
    match asSeq cond.value with
    | some xs =>
        if xs.length = 2 then .ok (cond.field ++ " BETWEEN %s AND %s", xs)
        else .error "BETWEEN 操作符的值必须是包含两个元素的列表或元组"
    | none => .error "BETWEEN 操作符的值必须是包含两个元素的列表或元组"
  else if pyUpper cond.operator = "LIKE" then
    .ok (cond.field ++ " LIKE %s", [cond.value])
  else
    .ok (cond.field ++ " " ++ pyUpper cond.operator ++ " %s", [cond.value])

/-- The accumulation loop of `build_where_clause`: collects the clause parts
(the first one unprefixed, every later one prefixed with its own stored
logic connector) and the flat parameter list. -/
def whereParts : List QueryCondition → Bool → Except String (List String × List PyVal)
  | [], _ => .ok ([], [])
  | c :: cs, isFirst => do
    let (fragment, ps) ← compile_condition c
    let part := if isFirst then fragment else c.logic ++ " " ++ fragment
    let (parts, rest) ← whereParts cs false
    .ok (part :: parts, ps ++ rest)

/-- `build_where_clause(conditions)` of `query_builder.py`. -/
def build_where_clause (conditions : List QueryCondition) :
    Except String (String × List PyVal) :=
  match conditions with
  | [] => .ok ("", [])
  | c :: cs => do
    let (parts, ps) ← whereParts (c :: cs) true
    .ok (joinSep " " parts, ps)

/-- The mutable state of a `QueryBuilder` instance. -/
structure QueryBuilder where
  table_name : String
  select_fields : List String := ["*"]
  where_conditions : List QueryCondition := []
  order_by : List (String × String) := []
  limit_value : Option Int := none
  offset_value : Option Int := none

/-- The field-validation loop of `QueryBuilder.select`: non-strings raise,
whitespace-only fields are skipped, fields containing a dangerous keyword
raise, and every other field is kept (the format-pattern check only logs
a warning and keeps the field in both branches). -/
def validateFields : List PyVal → Except String (List String)
  | [] => .ok []
  | f :: fs =>
    match f with
    | .vStr s =>
      if pyStrip s = "" then validateFields fs
      else if hasDangerousKeyword (pyStrip s) then
        .error ("字段名 " ++ pyStrip s ++ " 包含不安全的 SQL 关键字")
      else do
        let rest ← validateFields fs
        .ok (pyStrip s :: rest)
    | _ => .error "字段名必须是字符串类型"

/-- `QueryBuilder.select(fields)`; the `None` argument and the empty list both
take the falsy branch. -/
def QueryBuilder.select (b : QueryBuilder) (fields : Option (List PyVal)) :
    Except String QueryBuilder :=
  match fields with
  | none => .ok { b with select_fields := ["*"] }
  | some [] => .ok { b with select_fields := ["*"] }
  | some fs => do
    let validated ← validateFields fs
    if validated = [] then
      .ok { b with select_fields := ["*"] }
    else
      .ok { b with select_fields := validated }

/-- `QueryBuilder.where(field, operator, value, logic)` (named `whereMethod`
because `where` is a Lean keyword).  The operator check only warns; the
logic connector and the field name are validated; the stored condition
carries the stripped field, the upper-cased operator and the upper-cased
stripped connector. -/
def QueryBuilder.whereMethod (b : QueryBuilder) (field : String) (operator : String)
    (value : PyVal) (logic : String) : Except String QueryBuilder :=
  if ¬(pyStrip (pyUpper logic) = "AND" ∨ pyStrip (pyUpper logic) = "OR") then
    .error ("逻辑连接符必须是 AND 或 OR，收到的为 " ++ logic)
  else if pyStrip field = "" then
    .error "字段名不能为空"
  else
    .ok { b with where_conditions :=
      b.where_conditions ++ [⟨pyStrip field, pyUpper operator, value, pyStrip (pyUpper logic)⟩] }

/-- `QueryBuilder.order_by_field(field, direction)`. -/
def QueryBuilder.order_by_field (b : QueryBuilder) (field : String)
    (direction : String) : Except String QueryBuilder :=
  if pyStrip field = "" then .error "排序字段名不能为空"
  else if ¬(pyStrip (pyUpper direction) = "ASC" ∨ pyStrip (pyUpper direction) = "DESC") then
    .error ("排序方向必须是 ASC 或 DESC，收到 " ++ direction)
  else .ok { b with order_by := b.order_by ++ [(pyStrip field, pyStrip (pyUpper direction))] }

/-- `isinstance(v, int) and v >= 0`. -/
def isNonNegInt : PyVal → Bool
  | .vInt n => decide (0 ≤ n)
  | _ => false

/-- The integer behind a `PyVal`, when there is one. -/
def pyInt? : PyVal → Option Int
  | .vInt n => some n
  | _ => none

/-- `offset is not None and (not isinstance(offset, int) or offset < 0)`. -/
def pyOffsetBad : Option PyVal → Bool
  | some off => !(isNonNegInt off)
  | none => false

/-- `QueryBuilder.limit(count, offset)`. -/
def QueryBuilder.limit (b : QueryBuilder) (count : PyVal) (offset : Option PyVal) :
    Except String QueryBuilder :=
  if ¬ isNonNegInt count then
    .error "LIMIT 数量必须是大于等于 0 的整数"
  else if pyOffsetBad offset then
    .error "OFFSET 必须是大于等于 0 的整数"
  else
    .ok { b with limit_value := pyInt? count, offset_value := offset.bind pyInt? }

/-- The ORDER BY clause computed by `QueryBuilder.build()`. -/
def orderByClause (b : QueryBuilder) : String :=
  match b.order_by with
  | [] => ""
  | fd :: obs =>
    "ORDER BY " ++ joinSep ", " ((fd :: obs).map fun fd => fd.1 ++ " " ++ fd.2)

/-- The LIMIT clause computed by `QueryBuilder.build()`: with both a limit and
an offset it is the fixed offset-first pair `LIMIT offset, count`. -/
def limitClause (b : QueryBuilder) : String :=
  match b.limit_value, b.offset_value with
  | some c, some o => "LIMIT " ++ toString o ++ ", " ++ toString c
  | some c, none => "LIMIT " ++ toString c
  | none, some _ => ""
  | none, none => ""

/-- The clause assembly of `QueryBuilder.build()`: the non-empty parts joined
with single spaces, terminated with a semicolon.  `where_clause` is the
already-prefixed WHERE clause (or "" when there are no conditions). -/
def assembleSql (b : QueryBuilder) (where_clause : String) : String :=
  joinSep " "
    (["SELECT " ++ joinSep ", " b.select_fields, "FROM " ++ b.table_name]
      ++ (if where_clause = "" then [] else [where_clause])
      ++ (if orderByClause b = "" then [] else [orderByClause b])
      ++ (if limitClause b = "" then [] else [limitClause b])) ++ ";"

/-- `tuple(params_list) if params_list else None`. -/
def paramsOf : List PyVal → Option (List PyVal)
  | [] => none
  | ps => some ps

/-- `QueryBuilder.build()`: assembles the SQL text and the parameter tuple
(`None` when the gathered parameter list is empty). -/
def QueryBuilder.build (b : QueryBuilder) :
    Except String (String × Option (List PyVal)) :=
  match b.where_conditions with
  | [] => .ok (assembleSql b "", paramsOf [])
  | _ => do
    let (w, ps) ← build_where_clause b.where_conditions
    .ok (assembleSql b ("WHERE " ++ w), paramsOf ps)

/-! ### Counting and substituting the placeholder marker -/

/-- Number of occurrences of the placeholder marker "%s" in a character list. -/
def countPS : List Char → Nat
  | [] => 0
  | [_] => 0
  | c :: d :: rest =>
    if c = '%' ∧ d = 's' then countPS rest + 1 else countPS (d :: rest)

/-- Substitute the replacement strings for the occurrences of "%s", left to
right; used to state that the parameters of a built query correspond
positionally to its placeholders. -/
def substPS : List Char → List (List Char) → List Char
  | [], _ => []
  | [c], _ => [c]
  | c :: d :: rest, ps =>
    if c = '%' ∧ d = 's' then
      match ps with
      | [] => c :: d :: rest
      | p :: tl => p ++ substPS rest tl
    else c :: substPS (d :: rest) ps

/-- "the string contains no placeholder marker". -/
def noPS (s : String) : Prop := countPS s.data = 0

instance (s : String) : Decidable (noPS s) := by
  unfold noPS; infer_instance

theorem countPS_append : ∀ (a b : List Char),
    ¬(a.getLast? = some '%' ∧ b.head? = some 's') →
    countPS (a ++ b) = countPS a + countPS b
  | [], _, _ => by simp [countPS]
  | [c], b, hb => by
    cases b with
    | nil => simp [countPS]
    | cons e bs =>
      have hce : ¬(c = '%' ∧ e = 's') := by simpa using hb
      simp [countPS, hce]
  | c :: d :: rest, b, hb => by
    by_cases h : c = '%' ∧ d = 's'
    · have hb' : ¬(rest.getLast? = some '%' ∧ b.head? = some 's') := by
        cases rest with
        | nil => simp
        | cons r rs =>
          rw [List.getLast?_cons_cons, List.getLast?_cons_cons] at hb
          exact hb
      have ih := countPS_append rest b hb'
      simp only [List.cons_append, countPS, h, if_true, and_self, ite_true]
      simp only [List.append_eq] at ih ⊢
      omega
    · have hb' : ¬((d :: rest).getLast? = some '%' ∧ b.head? = some 's') := by
        rw [List.getLast?_cons_cons] at hb
        exact hb
      have ih := countPS_append (d :: rest) b hb'
      simp only [List.cons_append, countPS, h, if_false, ite_false] at ih ⊢
      exact ih

theorem substPS_eq_of_countPS_zero : ∀ (a : List Char) (ps : List (List Char)),
    countPS a = 0 → substPS a ps = a
  | [], _, _ => rfl
  | [_], _, _ => rfl
  | c :: d :: rest, ps, h => by
    have hc : ¬(c = '%' ∧ d = 's') := by
      intro hcd
      simp [countPS, hcd] at h
    have h' : countPS (d :: rest) = 0 := by simpa [countPS, hc] using h
    simp [substPS, hc, substPS_eq_of_countPS_zero (d :: rest) ps h']

theorem substPS_append : ∀ (a b : List Char) (ps : List (List Char)),
    countPS a ≤ ps.length →
    ¬(a.getLast? = some '%' ∧ b.head? = some 's') →
    substPS (a ++ b) ps =
      substPS a (ps.take (countPS a)) ++ substPS b (ps.drop (countPS a))
  | [], b, ps, _, _ => by simp [countPS, substPS]
  | [c], b, ps, _, hb => by
    cases b with
    | nil => simp [countPS, substPS]
    | cons e bs =>
      have hce : ¬(c = '%' ∧ e = 's') := by simpa using hb
      simp [countPS, substPS, hce]
  | c :: d :: rest, b, ps, hlen, hb => by
    by_cases h : c = '%' ∧ d = 's'
    · obtain ⟨rfl, rfl⟩ := h
      have hcount : countPS ('%' :: 's' :: rest) = countPS rest + 1 := by
        simp [countPS]
      rw [hcount] at hlen
      cases ps with
      | nil => simp at hlen
      | cons p tl =>
        have hb' : ¬(rest.getLast? = some '%' ∧ b.head? = some 's') := by
          cases rest with
          | nil => simp
          | cons r rs =>
            rw [List.getLast?_cons_cons, List.getLast?_cons_cons] at hb
            exact hb
        have hlen' : countPS rest ≤ tl.length := by
          simp at hlen; omega
        have ih := substPS_append rest b tl hlen' hb'
        rw [hcount, List.take_succ_cons, List.drop_succ_cons]
        show p ++ substPS (rest ++ b) tl =
          (p ++ substPS rest (List.take (countPS rest) tl)) ++
            substPS b (List.drop (countPS rest) tl)
        rw [ih, List.append_assoc]
    · have hcount : countPS (c :: d :: rest) = countPS (d :: rest) := by
        simp [countPS, h]
      have hb' : ¬((d :: rest).getLast? = some '%' ∧ b.head? = some 's') := by
        rw [List.getLast?_cons_cons] at hb
        exact hb
      have hlen' : countPS (d :: rest) ≤ ps.length := by rwa [hcount] at hlen
      have ih := substPS_append (d :: rest) b ps hlen' hb'
      rw [hcount]
      simp only [List.cons_append, substPS, h, if_false, ite_false,
        List.append_eq] at ih ⊢
      rw [ih]

theorem countPS_append_zero (a b : List Char) (ha : countPS a = 0)
    (hb : ¬(a.getLast? = some '%' ∧ b.head? = some 's')) :
    countPS (a ++ b) = countPS b := by
  rw [countPS_append a b hb, ha, Nat.zero_add]

theorem substPS_append_left_zero (a b : List Char) (ps : List (List Char))
    (ha : countPS a = 0)
    (hb : ¬(a.getLast? = some '%' ∧ b.head? = some 's')) :
    substPS (a ++ b) ps = a ++ substPS b ps := by
  rw [substPS_append a b ps (by omega) hb, ha]
  simp [substPS_eq_of_countPS_zero a _ ha]

theorem substPS_append_exact (a b : List Char) (ps₁ ps₂ : List (List Char))
    (ha : countPS a = ps₁.length)
    (hb : ¬(a.getLast? = some '%' ∧ b.head? = some 's')) :
    substPS (a ++ b) (ps₁ ++ ps₂) = substPS a ps₁ ++ substPS b ps₂ := by
  rw [substPS_append a b _ (by rw [ha, List.length_append]; omega) hb, ha,
    List.take_left, List.drop_left]

/-! ### ASCII upper-casing facts -/

theorem char_toNat_ofNat (n : Nat) (h : n < 55296) : (Char.ofNat n).toNat = n := by
  unfold Char.ofNat
  rw [dif_pos (Or.inl h)]
  rfl

theorem char_toUpper_ne_s (c : Char) : Char.toUpper c ≠ 's' := by
  intro hEq
  by_cases h : c.toNat ≥ 97 ∧ c.toNat ≤ 122
  · have hval : (Char.toUpper c).toNat = c.toNat - 32 := by
      simp only [Char.toUpper, h, and_self, if_true, ite_true]
      exact char_toNat_ofNat _ (by omega)
    rw [hEq] at hval
    have : Char.toNat 's' = 115 := by decide
    omega
  · have hup : Char.toUpper c = c := by
      simp only [Char.toUpper, h, if_false, ite_false]
    rw [hup] at hEq
    subst hEq
    have : Char.toNat 's' = 115 := by decide
    omega

theorem char_toUpper_toUpper (c : Char) : Char.toUpper (Char.toUpper c) = Char.toUpper c := by
  by_cases h : c.toNat ≥ 97 ∧ c.toNat ≤ 122
  · have hval : (Char.toUpper c).toNat = c.toNat - 32 := by
      simp only [Char.toUpper, h, and_self, if_true, ite_true]
      exact char_toNat_ofNat _ (by omega)
    have hnot : ¬((Char.toUpper c).toNat ≥ 97 ∧ (Char.toUpper c).toNat ≤ 122) := by
      rw [hval]; omega
    conv_lhs => rw [Char.toUpper]
    simp only [hnot, if_false, ite_false]
  · have hup : Char.toUpper c = c := by
      simp only [Char.toUpper, h, if_false, ite_false]
    rw [hup, hup]

theorem pyUpper_data (s : String) : (pyUpper s).data = s.data.map Char.toUpper := rfl

theorem pyUpper_idem (s : String) : pyUpper (pyUpper s) = pyUpper s := by
  apply String.ext
  rw [pyUpper_data, pyUpper_data, List.map_map]
  exact List.map_congr_left fun c _ => char_toUpper_toUpper c

theorem countPS_of_no_s : ∀ (l : List Char), (∀ c ∈ l, c ≠ 's') → countPS l = 0
  | [], _ => rfl
  | [_], _ => rfl
  | c :: d :: rest, h => by
    have hd : d ≠ 's' := h d (by simp)
    have : ¬(c = '%' ∧ d = 's') := fun hcd => hd hcd.2
    simp only [countPS, this, if_false, ite_false]
    exact countPS_of_no_s (d :: rest) fun x hx => h x (List.mem_cons_of_mem c hx)

theorem countPS_pyUpper (s : String) : countPS (pyUpper s).data = 0 := by
  apply countPS_of_no_s
  intro c hc
  rw [pyUpper_data] at hc
  obtain ⟨x, _, hx⟩ := List.mem_map.mp hc
  rw [← hx]
  exact char_toUpper_ne_s x

theorem pyUpper_head_ne_s (s : String) : (pyUpper s).data.head? ≠ some 's' := by
  intro h
  cases hd : (pyUpper s).data with
  | nil => rw [hd] at h; simp at h
  | cons c l =>
    rw [hd] at h
    simp at h
    have hc : c ∈ (pyUpper s).data := by rw [hd]; simp
    rw [pyUpper_data] at hc
    obtain ⟨x, _, hx⟩ := List.mem_map.mp hc
    rw [← hx] at h
    exact char_toUpper_ne_s x h

/-! ### Join and concatenation lemmas -/

/-- The text contributed by the non-first parts of a `" ".join`: each part
preceded by one space. -/
def tailText (parts : List String) : String := strConcat (parts.map fun p => " " ++ p)

theorem tailText_cons (p : String) (parts : List String) :
    tailText (p :: parts) = " " ++ p ++ tailText parts := rfl

theorem strConcat_append (l₁ l₂ : List String) :
    strConcat (l₁ ++ l₂) = strConcat l₁ ++ strConcat l₂ := by
  induction l₁ with
  | nil =>
    apply String.ext
    simp [strConcat, String.data_append]
  | cons x xs ih =>
    apply String.ext
    simp [strConcat, String.data_append, congrArg String.data ih]

theorem tailText_append (l₁ l₂ : List String) :
    tailText (l₁ ++ l₂) = tailText l₁ ++ tailText l₂ := by
  simp [tailText, List.map_append, strConcat_append]

theorem joinSep_space_cons : ∀ (x : String) (parts : List String),
    joinSep " " (x :: parts) = x ++ tailText parts
  | x, [] => by
    apply String.ext
    simp [joinSep, tailText, strConcat, String.data_append]
  | x, y :: ys => by
    have ih := joinSep_space_cons y ys
    apply String.ext
    simp [joinSep, tailText, strConcat, String.data_append, congrArg String.data ih]

theorem tailText_head_ne_s (parts : List String) :
    (tailText parts).data.head? ≠ some 's' := by
  cases parts with
  | nil => simp [tailText, strConcat]
  | cons p ps =>
    rw [tailText_cons]
    simp [String.data_append]

theorem countPS_tailText_zero (parts : List String)
    (h : ∀ p ∈ parts, countPS p.data = 0) :
    countPS (tailText parts).data = 0 := by
  induction parts with
  | nil => rfl
  | cons p ps ih =>
    rw [tailText_cons]
    simp only [String.data_append]
    rw [countPS_append, countPS_append]
    · have hp : countPS p.data = 0 := h p (by simp)
      have hps : countPS (tailText ps).data = 0 := ih fun q hq => h q (by simp [hq])
      simp [countPS, hp, hps]
    · simp
    · intro hcon
      exact tailText_head_ne_s ps hcon.2

theorem countPS_joinSep_comma : ∀ (fields : List String),
    (∀ f ∈ fields, countPS f.data = 0) →
    countPS (joinSep ", " fields).data = 0
  | [], _ => rfl
  | [x], h => h x (by simp)
  | x :: y :: ys, h => by
    have ih := countPS_joinSep_comma (y :: ys) fun f hf => h f (by simp at hf ⊢; tauto)
    have hx : countPS x.data = 0 := h x (by simp)
    show countPS (x ++ ", " ++ joinSep ", " (y :: ys)).data = 0
    rw [String.data_append, String.data_append, List.append_assoc]
    rw [countPS_append, countPS_append]
    · simp [hx, ih, countPS]
    · simp
    · simp

/-! ### String-level placeholder lemmas -/

theorem countPS_sappend (a b : String)
    (h : ¬(a.data.getLast? = some '%' ∧ b.data.head? = some 's')) :
    countPS (a ++ b).data = countPS a.data + countPS b.data := by
  rw [String.data_append]; exact countPS_append _ _ h

theorem substPS_sappend_zero (a b : String) (ps : List (List Char))
    (ha : countPS a.data = 0)
    (h : ¬(a.data.getLast? = some '%' ∧ b.data.head? = some 's')) :
    substPS (a ++ b).data ps = a.data ++ substPS b.data ps := by
  rw [String.data_append]; exact substPS_append_left_zero _ _ _ ha h

theorem substPS_sappend_exact (a b : String) (ps₁ ps₂ : List (List Char))
    (ha : countPS a.data = ps₁.length)
    (h : ¬(a.data.getLast? = some '%' ∧ b.data.head? = some 's')) :
    substPS (a ++ b).data (ps₁ ++ ps₂) = substPS a.data ps₁ ++ substPS b.data ps₂ := by
  rw [String.data_append]; exact substPS_append_exact _ _ _ _ ha h

theorem bdry_head (a b : String) (c : Char) (hc : b.data.head? = some c)
    (hcs : c ≠ 's') :
    ¬(a.data.getLast? = some '%' ∧ b.data.head? = some 's') := by
  intro h; rw [hc] at h; exact hcs (Option.some.inj h.2)

theorem bdry_last (a b : String) (c : Char) (hc : a.data.getLast? = some c)
    (hcp : c ≠ '%') :
    ¬(a.data.getLast? = some '%' ∧ b.data.head? = some 's') := by
  intro h; rw [hc] at h; exact hcp (Option.some.inj h.1)

theorem bdry_head_pyUpper (a : String) (s : String) :
    ¬(a.data.getLast? = some '%' ∧ (pyUpper s).data.head? = some 's') :=
  fun h => pyUpper_head_ne_s s h.2

theorem countPS_placeholders : ∀ n : Nat,
    countPS (joinSep ", " (List.replicate n "%s")).data = n
  | 0 => rfl
  | 1 => by decide
  | n + 2 => by
    have ih := countPS_placeholders (n + 1)
    rw [List.replicate_succ, List.replicate_succ]
    show countPS ("%s" ++ ", " ++ joinSep ", " ("%s" :: List.replicate n "%s")).data = n + 2
    rw [countPS_sappend ("%s" ++ ", ") (joinSep ", " ("%s" :: List.replicate n "%s"))
        (bdry_last _ _ ' ' (by rfl) (by decide)),
      countPS_sappend "%s" ", " (bdry_head _ _ ',' (by rfl) (by decide))]
    rw [List.replicate_succ] at ih
    rw [ih]
    have h1 : countPS ("%s" : String).data = 1 := by decide
    have h2 : countPS (", " : String).data = 0 := by decide
    omega

theorem substPS_placeholders : ∀ xs : List String,
    substPS (joinSep ", " (List.replicate xs.length "%s")).data (xs.map String.data) =
      (joinSep ", " xs).data
  | [] => rfl
  | [x] => by
    show substPS ['%', 's'] [x.data] = x.data
    simp [substPS]
  | x :: y :: ys => by
    have ih := substPS_placeholders (y :: ys)
    show substPS (("%s" ++ ", ") ++
        joinSep ", " (List.replicate (y :: ys).length "%s")).data
        ([x.data] ++ (y :: ys).map String.data) =
      (x ++ ", " ++ joinSep ", " (y :: ys)).data
    rw [substPS_sappend_exact ("%s" ++ ", ")
      (joinSep ", " (List.replicate (y :: ys).length "%s"))
      [x.data] ((y :: ys).map String.data)
      (by simp only [List.length_singleton]; decide)
      (bdry_last _ _ ' ' (by rfl) (by decide))]
    rw [ih]
    have hfirst : substPS ("%s" ++ ", ").data [x.data] = x.data ++ [',', ' '] := by
      show substPS ['%', 's', ',', ' '] [x.data] = x.data ++ [',', ' ']
      simp [substPS]
    rw [hfirst]
    simp [String.data_append]

/-! ### Reference inline rendering (the spec's order-correspondence reading) -/

/-- Reference rendering of one condition, following the spec sentence that the
parameters appear "in matching order": the same clause shape as
`compile_condition`, but with each parameter value spliced (via `render`)
exactly where the code emits its "%s". -/
def inline_condition (render : PyVal → String) (cond : QueryCondition) :
    Except String String :=
  if pyUpper cond.operator = "IS NULL" ∨ pyUpper cond.operator = "IS NOT NULL" then
    .ok (cond.field ++ " " ++ pyUpper cond.operator)
  else if pyUpper cond.operator = "IN" then
    match asSeq cond.value with
    | some xs => .ok (cond.field ++ " IN (" ++ joinSep ", " (xs.map render) ++ ")")
    | none => .error "IN 操作符的值必须是列表或元组"
  else if pyUpper cond.operator = "NOT IN" then
    match asSeq cond.value with
    | some xs => .ok (cond.field ++ " NOT IN (" ++ joinSep ", " (xs.map render) ++ ")")
    | none => .error "NOT IN 操作符的值必须是列表或元组"
  else if pyUpper cond.operator = "BETWEEN" then
    match asSeq cond.value with
    | some [v₁, v₂] =>
        .ok (cond.field ++ " BETWEEN " ++ render v₁ ++ " AND " ++ render v₂)
    | some _ => .error "BETWEEN 操作符的值必须是包含两个元素的列表或元组"
    | none => .error "BETWEEN 操作符的值必须是包含两个元素的列表或元组"
  else if pyUpper cond.operator = "LIKE" then
    .ok (cond.field ++ " LIKE " ++ render cond.value)
  else
    .ok (cond.field ++ " " ++ pyUpper cond.operator ++ " " ++ render cond.value)

/-! ### Per-condition correspondence between placeholders and parameters -/

/-- Associativity of string concatenation. -/
theorem str_append_assoc (a b c : String) : a ++ b ++ c = a ++ (b ++ c) := by
  apply String.ext
  simp [String.data_append]

/-- One compiled condition: exactly as many "%s" markers as parameters, and
substituting the rendered parameters for the markers, left to right, yields
the inline reference rendering. -/
theorem compile_condition_spec (c : QueryCondition) (frag : String) (ps : List PyVal)
    (h : compile_condition c = .ok (frag, ps)) (hf : noPS c.field) :
    countPS frag.data = ps.length ∧
    ∀ render : PyVal → String, ∃ ifrag : String,
      inline_condition render c = .ok ifrag ∧
      substPS frag.data (ps.map fun v => (render v).data) = ifrag.data := by
  have hfd : countPS c.field.data = 0 := hf
  unfold compile_condition at h
  split_ifs at h with h1 h2 h3 h4 h5
  -- IS NULL / IS NOT NULL
  · simp only [Except.ok.injEq, Prod.mk.injEq] at h
    obtain ⟨hfrag, hps⟩ := h
    subst hfrag; subst hps
    have hzero : countPS (c.field ++ " " ++ pyUpper c.operator).data = 0 := by
      rw [countPS_sappend (c.field ++ " ") (pyUpper c.operator) (bdry_head_pyUpper _ _),
        countPS_sappend c.field " " (bdry_head _ _ ' ' (by rfl) (by decide))]
      rw [hfd, countPS_pyUpper]
      have e1 : countPS (" %s" : String).data = 1 := by decide
      have e2 : countPS (" " : String).data = 0 := by decide
      simp [e1, e2]
    refine ⟨by rw [hzero]; rfl, ?_⟩
    intro render
    refine ⟨c.field ++ " " ++ pyUpper c.operator, ?_, ?_⟩
    · unfold inline_condition
      rw [if_pos h1]
    · simp only [List.map_nil]
      exact substPS_eq_of_countPS_zero _ _ hzero
  -- IN
  · cases hseq : asSeq c.value with
    | none => rw [hseq] at h; cases h
    | some xs =>
      rw [hseq] at h
      simp only [Except.ok.injEq, Prod.mk.injEq] at h
      obtain ⟨hfrag, hps⟩ := h
      subst hfrag; subst hps
      have hb1 : (c.field ++ " IN (").data.getLast? = some '(' := by
        rw [String.data_append, List.getLast?_append]; rfl
      constructor
      · rw [countPS_sappend _ ")" (bdry_head _ _ ')' (by rfl) (by decide)),
          countPS_sappend _ _ (bdry_last _ _ '(' hb1 (by decide)),
          countPS_sappend c.field " IN (" (bdry_head _ _ ' ' (by rfl) (by decide))]
        rw [hfd, countPS_placeholders]
        have e1 : countPS (" IN (" : String).data = 0 := by decide
        have e2 : countPS (")" : String).data = 0 := by decide
        omega
      · intro render
        refine ⟨c.field ++ " IN (" ++ joinSep ", " (xs.map render) ++ ")", ?_, ?_⟩
        · unfold inline_condition
          rw [if_neg h1, if_pos h2, hseq]
        · have hre : c.field ++ " IN (" ++ joinSep ", " (List.replicate xs.length "%s") ++ ")"
              = c.field ++ (" IN (" ++ (joinSep ", " (List.replicate xs.length "%s") ++ ")")) := by
            simp [str_append_assoc]
          rw [hre]
          rw [substPS_sappend_zero c.field _ _ hfd (bdry_head _ _ ' ' (by rfl) (by decide))]
          rw [substPS_sappend_zero " IN (" _ _ (by decide) (bdry_last _ _ '(' (by rfl) (by decide))]
          have hsplit : (xs.map fun v => (render v).data) =
              ((xs.map render).map String.data) ++ [] := by
            simp [List.map_map]
          rw [hsplit]
          rw [substPS_sappend_exact (joinSep ", " (List.replicate xs.length "%s")) ")"
            ((xs.map render).map String.data) []
            (by rw [countPS_placeholders]; simp)
            (bdry_head _ _ ')' (by rfl) (by decide))]
          have hmid : substPS (joinSep ", " (List.replicate xs.length "%s")).data
              ((xs.map render).map String.data) = (joinSep ", " (xs.map render)).data := by
            have := substPS_placeholders (xs.map render)
            rwa [List.length_map] at this
          rw [hmid]
          have hlastseg : substPS (")" : String).data [] = (")" : String).data := rfl
          rw [hlastseg]
          simp [String.data_append]
  -- NOT IN
  · cases hseq : asSeq c.value with
    | none => rw [hseq] at h; cases h
    | some xs =>
      rw [hseq] at h
      simp only [Except.ok.injEq, Prod.mk.injEq] at h
      obtain ⟨hfrag, hps⟩ := h
      subst hfrag; subst hps
      have hb1 : (c.field ++ " NOT IN (").data.getLast? = some '(' := by
        rw [String.data_append, List.getLast?_append]; rfl
      constructor
      · rw [countPS_sappend _ ")" (bdry_head _ _ ')' (by rfl) (by decide)),
          countPS_sappend _ _ (bdry_last _ _ '(' hb1 (by decide)),
          countPS_sappend c.field " NOT IN (" (bdry_head _ _ ' ' (by rfl) (by decide))]
        rw [hfd, countPS_placeholders]
        have e1 : countPS (" NOT IN (" : String).data = 0 := by decide
        have e2 : countPS (")" : String).data = 0 := by decide
        omega
      · intro render
        refine ⟨c.field ++ " NOT IN (" ++ joinSep ", " (xs.map render) ++ ")", ?_, ?_⟩
        · unfold inline_condition
          rw [if_neg h1, if_neg h2, if_pos h3, hseq]
        · have hre : c.field ++ " NOT IN (" ++ joinSep ", " (List.replicate xs.length "%s") ++ ")"
              = c.field ++ (" NOT IN (" ++ (joinSep ", " (List.replicate xs.length "%s") ++ ")")) := by
            simp [str_append_assoc]
          rw [hre]
          rw [substPS_sappend_zero c.field _ _ hfd (bdry_head _ _ ' ' (by rfl) (by decide))]
          rw [substPS_sappend_zero " NOT IN (" _ _ (by decide) (bdry_last _ _ '(' (by rfl) (by decide))]
          have hsplit : (xs.map fun v => (render v).data) =
              ((xs.map render).map String.data) ++ [] := by
            simp [List.map_map]
          rw [hsplit]
          rw [substPS_sappend_exact (joinSep ", " (List.replicate xs.length "%s")) ")"
            ((xs.map render).map String.data) []
            (by rw [countPS_placeholders]; simp)
            (bdry_head _ _ ')' (by rfl) (by decide))]
          have hmid : substPS (joinSep ", " (List.replicate xs.length "%s")).data
              ((xs.map render).map String.data) = (joinSep ", " (xs.map render)).data := by
            have := substPS_placeholders (xs.map render)
            rwa [List.length_map] at this
          rw [hmid]
          have hlastseg : substPS (")" : String).data [] = (")" : String).data := rfl
          rw [hlastseg]
          simp [String.data_append]
  -- BETWEEN
  · cases hseq : asSeq c.value with
    | none => rw [hseq] at h; cases h
    | some xs =>
      rw [hseq] at h
      have h' : (if xs.length = 2 then
            (Except.ok (c.field ++ " BETWEEN %s AND %s", xs) : Except String (String × List PyVal))
          else .error "BETWEEN 操作符的值必须是包含两个元素的列表或元组") = .ok (frag, ps) := h
      split_ifs at h' with hlen
      simp only [Except.ok.injEq, Prod.mk.injEq] at h'
      have h := h'
      obtain ⟨hfrag, hps⟩ := h
      subst hfrag; subst hps
      obtain ⟨v₁, v₂, rfl⟩ := List.length_eq_two.mp hlen
      constructor
      · rw [countPS_sappend c.field " BETWEEN %s AND %s"
          (bdry_head _ _ ' ' (by rfl) (by decide))]
        rw [hfd]
        have e1 : countPS (" BETWEEN %s AND %s" : String).data = 2 := by decide
        simp [e1]
      · intro render
        refine ⟨c.field ++ " BETWEEN " ++ render v₁ ++ " AND " ++ render v₂, ?_, ?_⟩
        · unfold inline_condition
          rw [if_neg h1, if_neg h2, if_neg h3, if_pos h4, hseq]
        · have hre : (" BETWEEN %s AND %s" : String)
              = " BETWEEN " ++ ("%s" ++ (" AND " ++ "%s")) := by decide
          rw [substPS_sappend_zero c.field _ _ hfd (bdry_head _ _ ' ' (by rfl) (by decide))]
          rw [hre]
          rw [substPS_sappend_zero " BETWEEN " _ _ (by decide)
            (bdry_last _ _ ' ' (by rfl) (by decide))]
          have hsplit : (([v₁, v₂] : List PyVal).map fun v => (render v).data) =
              [(render v₁).data] ++ [(render v₂).data] := by simp
          rw [hsplit]
          rw [substPS_sappend_exact "%s" (" AND " ++ "%s")
            [(render v₁).data] [(render v₂).data]
            (by simp only [List.length_singleton]; decide)
            (bdry_head _ _ ' ' (by rfl) (by decide))]
          rw [substPS_sappend_zero " AND " "%s" _ (by decide)
            (bdry_last _ _ ' ' (by rfl) (by decide))]
          have e1 : substPS ("%s" : String).data [(render v₁).data] =
              (render v₁).data ++ [] := rfl
          have e2 : substPS ("%s" : String).data [(render v₂).data] =
              (render v₂).data ++ [] := rfl
          rw [e1, e2]
          simp [String.data_append]
  -- LIKE
  · simp only [Except.ok.injEq, Prod.mk.injEq] at h
    obtain ⟨hfrag, hps⟩ := h
    subst hfrag; subst hps
    constructor
    · rw [countPS_sappend c.field " LIKE %s" (bdry_head _ _ ' ' (by rfl) (by decide))]
      rw [hfd]
      have e1 : countPS (" LIKE %s" : String).data = 1 := by decide
      simp [e1]
    · intro render
      refine ⟨c.field ++ " LIKE " ++ render c.value, ?_, ?_⟩
      · unfold inline_condition
        rw [if_neg h1, if_neg h2, if_neg h3, if_neg h4, if_pos h5]
      · have hre : (" LIKE %s" : String) = " LIKE " ++ "%s" := by decide
        rw [substPS_sappend_zero c.field _ _ hfd (bdry_head _ _ ' ' (by rfl) (by decide))]
        rw [hre]
        rw [substPS_sappend_zero " LIKE " "%s" _ (by decide)
          (bdry_last _ _ ' ' (by rfl) (by decide))]
        have e1 : substPS ("%s" : String).data [(render c.value).data] =
            (render c.value).data ++ [] := rfl
        simp only [List.map_cons, List.map_nil] at *
        rw [e1]
        simp [String.data_append]
  -- default operators
  · simp only [Except.ok.injEq, Prod.mk.injEq] at h
    obtain ⟨hfrag, hps⟩ := h
    subst hfrag; subst hps
    constructor
    · rw [countPS_sappend (c.field ++ " " ++ pyUpper c.operator) " %s"
        (bdry_head _ _ ' ' (by rfl) (by decide)),
        countPS_sappend (c.field ++ " ") (pyUpper c.operator) (bdry_head_pyUpper _ _),
        countPS_sappend c.field " " (bdry_head _ _ ' ' (by rfl) (by decide))]
      rw [hfd, countPS_pyUpper]
      have e1 : countPS (" %s" : String).data = 1 := by decide
      have e2 : countPS (" " : String).data = 0 := by decide
      simp [e1, e2]
    · intro render
      refine ⟨c.field ++ " " ++ pyUpper c.operator ++ " " ++ render c.value, ?_, ?_⟩
      · unfold inline_condition
        rw [if_neg h1, if_neg h2, if_neg h3, if_neg h4, if_neg h5]
      · have hre : c.field ++ " " ++ pyUpper c.operator ++ " %s"
            = c.field ++ (" " ++ (pyUpper c.operator ++ " %s")) := by
          simp [str_append_assoc]
        rw [hre]
        rw [substPS_sappend_zero c.field _ _ hfd (bdry_head _ _ ' ' (by rfl) (by decide))]
        rw [substPS_sappend_zero " " _ _ (by decide)
          (bdry_last _ _ ' ' (by rfl) (by decide))]
        rw [substPS_sappend_zero (pyUpper c.operator) " %s" _ (countPS_pyUpper _)
          (bdry_head _ _ ' ' (by rfl) (by decide))]
        have e1 : substPS (" %s" : String).data [(render c.value).data] =
            ' ' :: ((render c.value).data ++ []) := rfl
        simp only [List.map_cons, List.map_nil] at *
        rw [e1]
        simp [String.data_append]

/-! ### WHERE-clause level correspondence -/

/-- Reference inline rendering of the loop of `build_where_clause`. -/
def inlineParts (render : PyVal → String) :
    List QueryCondition → Bool → Except String (List String)
  | [], _ => .ok []
  | c :: cs, isFirst => do
    let fragment ← inline_condition render c
    let part := if isFirst then fragment else c.logic ++ " " ++ fragment
    let parts ← inlineParts render cs false
    .ok (part :: parts)

/-- Reference inline rendering of the whole WHERE clause. -/
def inline_where_clause (render : PyVal → String)
    (conditions : List QueryCondition) : Except String String :=
  match conditions with
  | [] => .ok ""
  | c :: cs => do
    let parts ← inlineParts render (c :: cs) true
    .ok (joinSep " " parts)

/-- The non-first iterations of the `build_where_clause` loop: placeholder
count equals parameter count, and substitution yields the inline rendering. -/
theorem whereParts_tail_spec : ∀ (cs : List QueryCondition) (parts : List String)
    (ps : List PyVal),
    whereParts cs false = .ok (parts, ps) →
    (∀ c ∈ cs, noPS c.field ∧ (c.logic = "AND" ∨ c.logic = "OR")) →
    countPS (tailText parts).data = ps.length ∧
    ∀ render : PyVal → String, ∃ iparts : List String,
      inlineParts render cs false = .ok iparts ∧
      substPS (tailText parts).data (ps.map fun v => (render v).data) =
        (tailText iparts).data
  | [], parts, ps, h, _ => by
    simp only [whereParts, Except.ok.injEq, Prod.mk.injEq] at h
    obtain ⟨hparts, hps⟩ := h
    subst hparts; subst hps
    exact ⟨rfl, fun render => ⟨[], rfl, rfl⟩⟩
  | c :: cs, parts, ps, h, hconds => by
    rw [whereParts] at h
    cases hc : compile_condition c with
    | error e => rw [hc] at h; cases h
    | ok fp =>
      obtain ⟨frag, pc⟩ := fp
      rw [hc] at h
      cases hw : whereParts cs false with
      | error e => rw [hw] at h; simp only [bind, Except.bind] at h; cases h
      | ok pr =>
        obtain ⟨parts', rest⟩ := pr
        rw [hw] at h
        simp only [bind, Except.bind, Except.ok.injEq, Prod.mk.injEq,
          Bool.false_eq_true, if_false, ite_false] at h
        obtain ⟨hparts, hps⟩ := h
        subst hparts; subst hps
        have hcf : noPS c.field := (hconds c (by simp)).1
        have hclogic : c.logic = "AND" ∨ c.logic = "OR" := (hconds c (by simp)).2
        have hlogic0 : countPS c.logic.data = 0 := by
          rcases hclogic with h | h <;> rw [h] <;> decide
        have hspec := compile_condition_spec c frag pc hc hcf
        have ih := whereParts_tail_spec cs parts' rest hw
          fun x hx => hconds x (by simp [hx])
        have hre : tailText ((c.logic ++ " " ++ frag) :: parts') =
            " " ++ (c.logic ++ (" " ++ (frag ++ tailText parts'))) := by
          rw [tailText_cons]
          apply String.ext
          simp [String.data_append]
        rw [hre]
        have hbl : ∀ x : String, ¬((" " : String).data.getLast? = some '%' ∧
            x.data.head? = some 's') := fun x => bdry_last _ _ ' ' (by rfl) (by decide)
        have hbtail : ∀ a : String, ¬(a.data.getLast? = some '%' ∧
            (tailText parts').data.head? = some 's') :=
          fun a hh => tailText_head_ne_s parts' hh.2
        constructor
        · rw [countPS_sappend _ _ (hbl _),
            countPS_sappend c.logic _ (bdry_head _ _ ' ' (by rfl) (by decide)),
            countPS_sappend _ _ (hbl _),
            countPS_sappend frag _ (hbtail _)]
          rw [hspec.1, ih.1, hlogic0]
          have hsp : countPS [' '] = 0 := by decide
          simp [hsp]
        · intro render
          obtain ⟨ifrag, hinline, hsubst⟩ := hspec.2 render
          obtain ⟨iparts', hiparts, hsubst'⟩ := ih.2 render
          refine ⟨(c.logic ++ " " ++ ifrag) :: iparts', ?_, ?_⟩
          · rw [inlineParts, hinline, hiparts]
            rfl
          · rw [List.map_append]
            rw [substPS_sappend_zero " " _ _ (by decide) (hbl _),
              substPS_sappend_zero c.logic _ _ hlogic0
                (bdry_head _ _ ' ' (by rfl) (by decide)),
              substPS_sappend_zero " " _ _ (by decide) (hbl _),
              substPS_sappend_exact frag (tailText parts') _ _
                (by rw [hspec.1]; simp) (hbtail _)]
            rw [hsubst, hsubst']
            rw [tailText_cons]
            simp [String.data_append]

/-- The whole compiled WHERE clause: placeholder count equals parameter
count, and substituting the rendered parameters yields the inline reference
rendering of the clause. -/
theorem build_where_clause_spec (conds : List QueryCondition) (w : String)
    (ps : List PyVal)
    (h : build_where_clause conds = .ok (w, ps))
    (hconds : ∀ c ∈ conds, noPS c.field ∧ (c.logic = "AND" ∨ c.logic = "OR")) :
    countPS w.data = ps.length ∧
    ∀ render : PyVal → String, ∃ iw : String,
      inline_where_clause render conds = .ok iw ∧
      substPS w.data (ps.map fun v => (render v).data) = iw.data := by
  cases conds with
  | nil =>
    simp only [build_where_clause, Except.ok.injEq, Prod.mk.injEq] at h
    obtain ⟨hw, hps⟩ := h
    subst hw; subst hps
    exact ⟨rfl, fun render => ⟨"", rfl, rfl⟩⟩
  | cons c cs =>
    rw [build_where_clause, whereParts] at h
    cases hc : compile_condition c with
    | error e => rw [hc] at h; simp only [bind, Except.bind] at h; cases h
    | ok fp =>
      obtain ⟨frag, pc⟩ := fp
      rw [hc] at h
      cases hw : whereParts cs false with
      | error e => rw [hw] at h; simp only [bind, Except.bind] at h; cases h
      | ok pr =>
        obtain ⟨parts', rest⟩ := pr
        rw [hw] at h
        simp only [bind, Except.bind, Except.ok.injEq, Prod.mk.injEq,
          if_true, ite_true] at h
        obtain ⟨hwq, hps⟩ := h
        subst hwq; subst hps
        have hcf : noPS c.field := (hconds c (by simp)).1
        have hspec := compile_condition_spec c frag pc hc hcf
        have ih := whereParts_tail_spec cs parts' rest hw
          fun x hx => hconds x (by simp [hx])
        have hbtail : ∀ a : String, ¬(a.data.getLast? = some '%' ∧
            (tailText parts').data.head? = some 's') :=
          fun a hh => tailText_head_ne_s parts' hh.2
        rw [joinSep_space_cons]
        constructor
        · rw [countPS_sappend frag _ (hbtail _), hspec.1, ih.1]
          simp
        · intro render
          obtain ⟨ifrag, hinline, hsubst⟩ := hspec.2 render
          obtain ⟨iparts', hiparts, hsubst'⟩ := ih.2 render
          refine ⟨joinSep " " (ifrag :: iparts'), ?_, ?_⟩
          · rw [inline_where_clause, inlineParts, hinline, hiparts]
            rfl
          · rw [List.map_append]
            rw [substPS_sappend_exact frag (tailText parts') _ _
              (by rw [hspec.1]; simp) (hbtail _)]
            rw [hsubst, hsubst', joinSep_space_cons]
            simp [String.data_append]

/-! ### The fixed clauses of build() contain no placeholder marker -/

/-- Decimal digit characters are never the 's' of a placeholder. -/
theorem digitChar_ne_s (n : Nat) : Nat.digitChar n ≠ 's' := by
  rcases Nat.lt_or_ge n 16 with h | h
  · interval_cases n <;> decide
  · have hstar : Nat.digitChar n = '*' := by
      unfold Nat.digitChar
      repeat rw [if_neg (by omega)]
    rw [hstar]
    decide

theorem toDigitsCore_mem : ∀ (f n : Nat) (acc : List Char) (c : Char),
    c ∈ Nat.toDigitsCore 10 f n acc → (∃ m, c = Nat.digitChar m) ∨ c ∈ acc
  | 0, n, acc, c, h => .inr h
  | f + 1, n, acc, c, h => by
    rw [Nat.toDigitsCore] at h
    by_cases hdiv : n / 10 = 0
    · rw [if_pos hdiv] at h
      rcases List.mem_cons.mp h with rfl | hacc
      · exact .inl ⟨n % 10, rfl⟩
      · exact .inr hacc
    · rw [if_neg hdiv] at h
      rcases toDigitsCore_mem f (n / 10) _ c h with hd | hacc
      · exact .inl hd
      · rcases List.mem_cons.mp hacc with rfl | hacc'
        · exact .inl ⟨n % 10, rfl⟩
        · exact .inr hacc'

theorem int_toString_ne_s (i : Int) : ∀ c ∈ (toString i).data, c ≠ 's' := by
  cases i with
  | ofNat m =>
    intro c hc
    have hm : c ∈ Nat.toDigitsCore 10 (m + 1) m [] := hc
    rcases toDigitsCore_mem _ _ _ _ hm with ⟨k, rfl⟩ | hin
    · exact digitChar_ne_s k
    · cases hin
  | negSucc m =>
    intro c hc
    have hm : c ∈ '-' :: Nat.toDigitsCore 10 (m + 2) (m + 1) [] := hc
    rcases List.mem_cons.mp hm with rfl | hin
    · decide
    · rcases toDigitsCore_mem _ _ _ _ hin with ⟨k, rfl⟩ | hin'
      · exact digitChar_ne_s k
      · cases hin'

theorem countPS_int_toString (i : Int) : countPS (toString i).data = 0 :=
  countPS_of_no_s _ (int_toString_ne_s i)

theorem countPS_limitClause (b : QueryBuilder) : countPS (limitClause b).data = 0 := by
  unfold limitClause
  cases hl : b.limit_value with
  | none => cases ho : b.offset_value <;> rfl
  | some c =>
    cases ho : b.offset_value with
    | none =>
      rw [countPS_sappend "LIMIT " (toString c) (bdry_last _ _ ' ' (by rfl) (by decide))]
      rw [countPS_int_toString]
      decide
    | some o =>
      have hc1 : ("LIMIT " ++ toString o ++ ", ").data.getLast? = some ' ' := by
        rw [String.data_append, List.getLast?_append]; rfl
      rw [countPS_sappend _ (toString c) (bdry_last _ _ ' ' hc1 (by decide)),
        countPS_sappend _ ", " (bdry_head _ _ ',' (by rfl) (by decide)),
        countPS_sappend "LIMIT " (toString o) (bdry_last _ _ ' ' (by rfl) (by decide))]
      rw [countPS_int_toString, countPS_int_toString]
      decide

theorem countPS_orderByClause (b : QueryBuilder)
    (horder : ∀ fd ∈ b.order_by, noPS fd.1 ∧ (fd.2 = "ASC" ∨ fd.2 = "DESC")) :
    countPS (orderByClause b).data = 0 := by
  unfold orderByClause
  cases hob : b.order_by with
  | nil => rfl
  | cons fd obs =>
    rw [countPS_sappend "ORDER BY " _ (bdry_last _ _ ' ' (by rfl) (by decide))]
    have hjoin : countPS (joinSep ", " ((fd :: obs).map fun fd => fd.1 ++ " " ++ fd.2)).data = 0 := by
      apply countPS_joinSep_comma
      intro f hf
      obtain ⟨fd', hfd', rfl⟩ := List.mem_map.mp hf
      have hmem : fd' ∈ b.order_by := by rw [hob]; exact hfd'
      obtain ⟨hf0, hdir⟩ := horder fd' hmem
      have hd : (fd'.2).data.head? ≠ some 's' := by
        rcases hdir with h | h <;> rw [h] <;> decide
      rw [countPS_sappend (fd'.1 ++ " ") fd'.2 (fun hh => hd hh.2),
        countPS_sappend fd'.1 " " (bdry_head _ _ ' ' (by rfl) (by decide))]
      have hf0' : countPS fd'.1.data = 0 := hf0
      have hd0 : countPS (fd'.2).data = 0 := by
        rcases hdir with h | h <;> rw [h] <;> decide
      rw [hf0', hd0]
      decide
    rw [hjoin]
    decide

theorem countPS_selectPart (b : QueryBuilder)
    (hsel : ∀ f ∈ b.select_fields, noPS f) :
    countPS ("SELECT " ++ joinSep ", " b.select_fields).data = 0 := by
  rw [countPS_sappend "SELECT " _ (bdry_last _ _ ' ' (by rfl) (by decide))]
  rw [countPS_joinSep_comma b.select_fields fun f hf => hsel f hf]
  decide

theorem countPS_fromPart (b : QueryBuilder) (htable : noPS b.table_name) :
    countPS ("FROM " ++ b.table_name).data = 0 := by
  rw [countPS_sappend "FROM " _ (bdry_last _ _ ' ' (by rfl) (by decide))]
  have ht : countPS b.table_name.data = 0 := htable
  rw [ht]
  decide

/-! ### Assembly of build() and claim C1 -/

/-- Reference inline rendering of `QueryBuilder.build()`. -/
def QueryBuilder.buildInline (render : PyVal → String) (b : QueryBuilder) :
    Except String String :=
  match b.where_conditions with
  | [] => .ok (assembleSql b "")
  | c :: cs => do
    let iw ← inline_where_clause render (c :: cs)
    .ok (assembleSql b ("WHERE " ++ iw))

theorem tailText_singleton (x : String) : tailText [x] = " " ++ x := by
  apply String.ext
  simp [tailText, strConcat, String.data_append]

theorem bdry_tailText (a : String) (l : List String) :
    ¬(a.data.getLast? = some '%' ∧ (tailText l).data.head? = some 's') :=
  fun hh => tailText_head_ne_s l hh.2

theorem countPS_tailText_split (l1 : List String) (x : String) (l2 : List String)
    (h1 : ∀ p ∈ l1, countPS p.data = 0) (h2 : ∀ p ∈ l2, countPS p.data = 0) :
    countPS (tailText (l1 ++ ([x] ++ l2))).data = countPS x.data := by
  rw [tailText_append,
    countPS_sappend _ _ (bdry_tailText _ _),
    countPS_tailText_zero l1 h1,
    tailText_append,
    countPS_sappend _ _ (bdry_tailText _ _),
    countPS_tailText_zero l2 h2,
    tailText_singleton,
    countPS_sappend " " x (bdry_last _ _ ' ' (by rfl) (by decide))]
  have h0 : countPS (" " : String).data = 0 := by decide
  omega

theorem substPS_tailText_split (l1 : List String) (x x' : String) (l2 : List String)
    (ps : List (List Char))
    (h1 : ∀ p ∈ l1, countPS p.data = 0) (h2 : ∀ p ∈ l2, countPS p.data = 0)
    (hx : countPS x.data = ps.length)
    (hsub : substPS x.data ps = x'.data) :
    substPS (tailText (l1 ++ ([x] ++ l2))).data ps =
      (tailText (l1 ++ ([x'] ++ l2))).data := by
  rw [tailText_append, tailText_append]
  have hhead : ((tailText [x] ++ tailText l2) : String).data.head? = some ' ' := by
    rw [tailText_singleton]
    simp [String.data_append]
  rw [substPS_sappend_zero _ _ _ (countPS_tailText_zero l1 h1)
    (bdry_head _ _ ' ' hhead (by decide))]
  have hps : ps = ps ++ [] := by simp
  rw [hps]
  rw [substPS_sappend_exact (tailText [x]) (tailText l2) ps []
    (by rw [tailText_singleton,
        countPS_sappend " " x (bdry_last _ _ ' ' (by rfl) (by decide))]
        have h0 : countPS (" " : String).data = 0 := by decide
        omega)
    (bdry_tailText _ _)]
  rw [substPS_eq_of_countPS_zero _ _ (countPS_tailText_zero l2 h2)]
  have hsx : substPS (tailText [x]).data ps = (tailText [x']).data := by
    rw [tailText_singleton, tailText_singleton,
      substPS_sappend_zero " " x ps (by decide)
        (bdry_last _ _ ' ' (by rfl) (by decide)),
      hsub]
    rfl
  rw [hsx]
  rw [tailText_append, tailText_append]
  simp [String.data_append]

theorem assembleSql_form (b : QueryBuilder) (w' : String) :
    assembleSql b w' =
      ("SELECT " ++ joinSep ", " b.select_fields ++
        tailText (["FROM " ++ b.table_name] ++
          ((if w' = "" then [] else [w']) ++
            ((if orderByClause b = "" then [] else [orderByClause b]) ++
              (if limitClause b = "" then [] else [limitClause b]))))) ++ ";" := by
  unfold assembleSql
  have hlist : (["SELECT " ++ joinSep ", " b.select_fields, "FROM " ++ b.table_name]
      ++ (if w' = "" then [] else [w'])
      ++ (if orderByClause b = "" then [] else [orderByClause b])
      ++ (if limitClause b = "" then [] else [limitClause b]))
    = ("SELECT " ++ joinSep ", " b.select_fields) ::
      (["FROM " ++ b.table_name] ++ ((if w' = "" then [] else [w']) ++
        ((if orderByClause b = "" then [] else [orderByClause b]) ++
          (if limitClause b = "" then [] else [limitClause b])))) := by simp
  rw [hlist, joinSep_space_cons]

theorem assembleSql_spec (b : QueryBuilder) (wc : String)
    (htable : noPS b.table_name)
    (hsel : ∀ f ∈ b.select_fields, noPS f)
    (horder : ∀ fd ∈ b.order_by, noPS fd.1 ∧ (fd.2 = "ASC" ∨ fd.2 = "DESC")) :
    countPS (assembleSql b wc).data = countPS wc.data ∧
    ∀ (ps : List (List Char)) (iwc : String),
      countPS wc.data = ps.length →
      substPS wc.data ps = iwc.data →
      (wc = "" ↔ iwc = "") →
      substPS (assembleSql b wc).data ps = (assembleSql b iwc).data := by
  have hfrm : ∀ p ∈ ["FROM " ++ b.table_name], countPS p.data = 0 := by
    intro p hp
    rcases List.mem_singleton.mp hp with rfl
    exact countPS_fromPart b htable
  have hO : ∀ p ∈ ((if orderByClause b = "" then [] else [orderByClause b]) ++
      (if limitClause b = "" then [] else [limitClause b])), countPS p.data = 0 := by
    intro p hp
    rcases List.mem_append.mp hp with h1 | h2
    · by_cases hc : orderByClause b = ""
      · rw [if_pos hc] at h1; cases h1
      · rw [if_neg hc] at h1
        rcases List.mem_singleton.mp h1 with rfl
        exact countPS_orderByClause b horder
    · by_cases hc : limitClause b = ""
      · rw [if_pos hc] at h2; cases h2
      · rw [if_neg hc] at h2
        rcases List.mem_singleton.mp h2 with rfl
        exact countPS_limitClause b
  have hcount : ∀ w' : String, countPS (assembleSql b w').data = countPS w'.data := by
    intro w'
    rw [assembleSql_form]
    rw [countPS_sappend _ ";" (bdry_head _ _ ';' (by rfl) (by decide)),
      countPS_sappend _ _ (bdry_tailText _ _)]
    rw [countPS_selectPart b hsel]
    by_cases hw : w' = ""
    · subst hw
      rw [if_pos rfl]
      have h1 : countPS (tailText (["FROM " ++ b.table_name] ++ ([] ++
          ((if orderByClause b = "" then [] else [orderByClause b]) ++
            (if limitClause b = "" then [] else [limitClause b]))))).data = 0 := by
        apply countPS_tailText_zero
        intro p hp
        rcases List.mem_append.mp hp with h1 | h2
        · exact hfrm p h1
        · exact hO p (by simpa using h2)
      rw [h1]
      decide
    · rw [if_neg hw, countPS_tailText_split _ _ _ hfrm hO]
      have h0 : countPS (";" : String).data = 0 := by decide
      omega
  refine ⟨hcount wc, ?_⟩
  intro ps iwc hlen hsub hiff
  by_cases hw : wc = ""
  · have hiwc : iwc = "" := hiff.mp hw
    subst hw
    have hps : ps = [] := by
      have h0 : (0 : Nat) = ps.length := hlen
      exact (List.length_eq_zero.mp h0.symm)
    subst hps
    rw [hiwc]
    apply substPS_eq_of_countPS_zero
    rw [hcount ""]
    rfl
  · have hiwc : iwc ≠ "" := fun hh => hw (hiff.mpr hh)
    rw [assembleSql_form, assembleSql_form, if_neg hw, if_neg hiwc]
    have hXcount : countPS ("SELECT " ++ joinSep ", " b.select_fields ++
        tailText (["FROM " ++ b.table_name] ++ ([wc] ++
          ((if orderByClause b = "" then [] else [orderByClause b]) ++
            (if limitClause b = "" then [] else [limitClause b]))))).data = ps.length := by
      rw [countPS_sappend _ _ (bdry_tailText _ _), countPS_selectPart b hsel,
        countPS_tailText_split _ _ _ hfrm hO]
      omega
    have hps : ps = ps ++ [] := by simp
    rw [hps]
    rw [substPS_sappend_exact _ ";" ps [] hXcount
      (bdry_head _ _ ';' (by rfl) (by decide))]
    rw [substPS_sappend_zero _ _ _ (countPS_selectPart b hsel) (bdry_tailText _ _)]
    rw [substPS_tailText_split _ wc iwc _ _ hfrm hO hlen
      hsub]
    have hsemi : substPS (";" : String).data [] = (";" : String).data := rfl
    rw [hsemi]
    simp [String.data_append]

theorem sappend_ne_empty_of_left (a b : String) (h : a.data ≠ []) : a ++ b ≠ "" := by
  intro hh
  have hd := congrArg String.data hh
  rw [String.data_append] at hd
  rcases List.append_eq_nil.mp hd with ⟨h1, _⟩
  exact h h1

/-- Claim C1: for every builder state whose field-like strings contain no
placeholder marker, `build()` returns SQL text with exactly as many "%s"
markers as parameters, and substituting the rendered parameters for the
markers left to right yields the inline reference rendering (so the i-th
parameter corresponds to the i-th placeholder). -/
theorem build_placeholders_match_params
    (b : QueryBuilder) (sql : String) (params : Option (List PyVal))
    (hb : b.build = .ok (sql, params))
    (htable : noPS b.table_name)
    (hsel : ∀ f ∈ b.select_fields, noPS f)
    (hconds : ∀ c ∈ b.where_conditions, noPS c.field ∧ (c.logic = "AND" ∨ c.logic = "OR"))
    (horder : ∀ fd ∈ b.order_by, noPS fd.1 ∧ (fd.2 = "ASC" ∨ fd.2 = "DESC")) :
    countPS sql.data = (params.getD []).length ∧
    ∀ render : PyVal → String, ∃ isql : String,
      QueryBuilder.buildInline render b = .ok isql ∧
      substPS sql.data ((params.getD []).map fun v => (render v).data) = isql.data := by
  cases hwc : b.where_conditions with
  | nil =>
    simp only [QueryBuilder.build, hwc, Except.ok.injEq, Prod.mk.injEq] at hb
    obtain ⟨hsql, hparams⟩ := hb
    subst hsql; subst hparams
    have hasm := assembleSql_spec b "" htable hsel horder
    constructor
    · rw [hasm.1]
      rfl
    · intro render
      refine ⟨assembleSql b "", ?_, ?_⟩
      · simp only [QueryBuilder.buildInline, hwc]
      · simp only [paramsOf, Option.getD_none, List.map_nil]
        apply substPS_eq_of_countPS_zero
        rw [hasm.1]
        rfl
  | cons c cs =>
    simp only [QueryBuilder.build, hwc] at hb
    cases hbw : build_where_clause (c :: cs) with
    | error e =>
      rw [hbw] at hb
      simp only [bind, Except.bind] at hb
      cases hb
    | ok wp =>
      obtain ⟨w, ps⟩ := wp
      rw [hbw] at hb
      simp only [bind, Except.bind, Except.ok.injEq, Prod.mk.injEq] at hb
      obtain ⟨hsql, hparams⟩ := hb
      subst hsql; subst hparams
      have hconds' : ∀ x ∈ c :: cs, noPS x.field ∧ (x.logic = "AND" ∨ x.logic = "OR") := by
        intro x hx
        exact hconds x (by rw [hwc]; exact hx)
      have hspec := build_where_clause_spec (c :: cs) w ps hbw hconds'
      have hwcount : countPS ("WHERE " ++ w).data = ps.length := by
        rw [countPS_sappend "WHERE " w (bdry_last _ _ ' ' (by rfl) (by decide)),
          hspec.1]
        have h0 : countPS ("WHERE " : String).data = 0 := by decide
        omega
      have hasm := assembleSql_spec b ("WHERE " ++ w) htable hsel horder
      have hget : (paramsOf ps).getD [] = ps := by cases ps <;> rfl
      rw [hget]
      constructor
      · rw [hasm.1, hwcount]
      · intro render
        obtain ⟨iw, hiw, hsubw⟩ := hspec.2 render
        refine ⟨assembleSql b ("WHERE " ++ iw), ?_, ?_⟩
        · simp only [QueryBuilder.buildInline, hwc, hiw, bind, Except.bind]
        · apply hasm.2
          · rw [hwcount, List.length_map]
          · rw [substPS_sappend_zero "WHERE " w _ (by decide)
              (bdry_last _ _ ' ' (by rfl) (by decide)), hsubw]
            rw [String.data_append]
          · constructor
            · intro hh
              exact absurd hh (sappend_ne_empty_of_left _ _ (by decide))
            · intro hh
              exact absurd hh (sappend_ne_empty_of_left _ _ (by decide))

/-! ### Claim C1 witness and claim C2 -/

/-- Witness for C1 at a concrete builder with an equality, an IN list and an
OR connector. -/
theorem build_placeholders_match_params_witness :
    countPS ("SELECT * FROM t WHERE a = %s OR b IN (%s, %s);" : String).data = 3 ∧
    QueryBuilder.buildInline (fun _ => "?")
      ⟨"t", ["*"], [⟨"a", "=", .vInt 1, "AND"⟩,
        ⟨"b", "IN", .vList [.vInt 2, .vInt 3], "OR"⟩], [], none, none⟩ =
      .ok "SELECT * FROM t WHERE a = ? OR b IN (?, ?);" ∧
    substPS ("SELECT * FROM t WHERE a = %s OR b IN (%s, %s);" : String).data
      ([PyVal.vInt 1, PyVal.vInt 2, PyVal.vInt 3].map
        fun v => ((fun _ : PyVal => ("?" : String)) v).data) =
      ("SELECT * FROM t WHERE a = ? OR b IN (?, ?);" : String).data := by
  have h := build_placeholders_match_params
    ⟨"t", ["*"], [⟨"a", "=", .vInt 1, "AND"⟩,
      ⟨"b", "IN", .vList [.vInt 2, .vInt 3], "OR"⟩], [], none, none⟩
    "SELECT * FROM t WHERE a = %s OR b IN (%s, %s);"
    (some [PyVal.vInt 1, PyVal.vInt 2, PyVal.vInt 3])
    (by rfl)
    (by decide)
    (by decide)
    (by decide)
    (by decide)
  obtain ⟨isql, hiw, hsub⟩ := h.2 (fun _ => ("?" : String))
  have hconc : QueryBuilder.buildInline (fun _ => ("?" : String))
      ⟨"t", ["*"], [⟨"a", "=", .vInt 1, "AND"⟩,
        ⟨"b", "IN", .vList [.vInt 2, .vInt 3], "OR"⟩], [], none, none⟩ =
      .ok "SELECT * FROM t WHERE a = ? OR b IN (?, ?);" := by rfl
  rw [hconc] at hiw
  have hisql : isql = "SELECT * FROM t WHERE a = ? OR b IN (?, ?);" :=
    (Except.ok.inj hiw).symm
  subst hisql
  exact ⟨h.1, hconc, hsub⟩

theorem whereParts_structure : ∀ (cs : List QueryCondition) (parts : List String)
    (ps : List PyVal),
    whereParts cs false = .ok (parts, ps) →
    ∃ frags : List (String × String),
      List.Forall₂ (fun c lf => lf.1 = c.logic ∧
        (compile_condition c).map Prod.fst = .ok lf.2) cs frags ∧
      parts = frags.map fun lf => lf.1 ++ " " ++ lf.2
  | [], parts, ps, h => by
    simp only [whereParts, Except.ok.injEq, Prod.mk.injEq] at h
    obtain ⟨hparts, _⟩ := h
    subst hparts
    exact ⟨[], List.Forall₂.nil, rfl⟩
  | c :: cs, parts, ps, h => by
    rw [whereParts] at h
    cases hc : compile_condition c with
    | error e => rw [hc] at h; simp only [bind, Except.bind] at h; cases h
    | ok fp =>
      obtain ⟨frag, pc⟩ := fp
      rw [hc] at h
      cases hw : whereParts cs false with
      | error e => rw [hw] at h; simp only [bind, Except.bind] at h; cases h
      | ok pr =>
        obtain ⟨parts', rest⟩ := pr
        rw [hw] at h
        simp only [bind, Except.bind, Except.ok.injEq, Prod.mk.injEq,
          Bool.false_eq_true, if_false, ite_false] at h
        obtain ⟨hparts, _⟩ := h
        subst hparts
        obtain ⟨frags', hfa, hmap⟩ := whereParts_structure cs parts' rest hw
        refine ⟨(c.logic, frag) :: frags', ?_, ?_⟩
        · exact List.Forall₂.cons ⟨rfl, by rw [hc]; rfl⟩ hfa
        · rw [hmap]
          rfl

/-- Claim C2: the compiled WHERE clause of a non-empty condition list is the
first condition's own fragment followed, left to right, by each later
condition's fragment prefixed with that condition's own stored logic
connector — a flat concatenation that introduces nothing else. -/
theorem where_clause_flat_with_own_logic
    (c0 : QueryCondition) (cs : List QueryCondition) (w : String) (ps : List PyVal)
    (h : build_where_clause (c0 :: cs) = .ok (w, ps)) :
    ∃ (f0 : String) (frags : List (String × String)),
      (compile_condition c0).map Prod.fst = .ok f0 ∧
      List.Forall₂ (fun c lf => lf.1 = c.logic ∧
        (compile_condition c).map Prod.fst = .ok lf.2) cs frags ∧
      w = f0 ++ strConcat (frags.map fun lf => " " ++ (lf.1 ++ " " ++ lf.2)) := by
  rw [build_where_clause, whereParts] at h
  cases hc : compile_condition c0 with
  | error e => rw [hc] at h; simp only [bind, Except.bind] at h; cases h
  | ok fp =>
    obtain ⟨frag, pc⟩ := fp
    rw [hc] at h
    cases hw : whereParts cs false with
    | error e => rw [hw] at h; simp only [bind, Except.bind] at h; cases h
    | ok pr =>
      obtain ⟨parts', rest⟩ := pr
      rw [hw] at h
      simp only [bind, Except.bind, Except.ok.injEq, Prod.mk.injEq,
        if_true, ite_true] at h
      obtain ⟨hwq, _⟩ := h
      subst hwq
      obtain ⟨frags', hfa, hmap⟩ := whereParts_structure cs parts' rest hw
      refine ⟨frag, frags', by rfl, hfa, ?_⟩
      rw [joinSep_space_cons, hmap]
      unfold tailText
      rw [List.map_map]
      rfl

/-- Witness for C2 at a two-condition list mixing AND-first and OR. -/
theorem where_clause_flat_with_own_logic_witness :
    ∃ (f0 : String) (frags : List (String × String)),
      (compile_condition ⟨"a", "=", .vInt 1, "AND"⟩).map Prod.fst = .ok f0 ∧
      List.Forall₂ (fun c lf => lf.1 = c.logic ∧
        (compile_condition c).map Prod.fst = .ok lf.2)
        [⟨"b", ">", .vInt 2, "OR"⟩] frags ∧
      "a = %s OR b > %s" = f0 ++
        strConcat (frags.map fun lf => " " ++ (lf.1 ++ " " ++ lf.2)) :=
  where_clause_flat_with_own_logic ⟨"a", "=", .vInt 1, "AND"⟩
    [⟨"b", ">", .vInt 2, "OR"⟩] "a = %s OR b > %s" [.vInt 1, .vInt 2] (by rfl)

/-! ### Claims C3, C8 and C10 -/

/-- Counterexample to claim C3: an IN condition with an empty list is accepted
without a validation error, compiling to `f IN ()` with no parameters — the
compiler checks only that the value is a list or tuple, never that it is
non-empty. -/
theorem in_empty_sequence_accepted :
    compile_condition ⟨"f", "IN", .vList [], "AND"⟩ = .ok ("f IN ()", []) ∧
    build_where_clause [⟨"f", "IN", .vList [], "AND"⟩] = .ok ("f IN ()", []) := by
  constructor <;> rfl

theorem asSeq_eq_some (v : PyVal) (xs : List PyVal) (h : asSeq v = some xs) :
    v = .vList xs ∨ v = .vTuple xs := by
  cases v with
  | vList ys => simp [asSeq] at h; subst h; exact .inl rfl
  | vTuple ys => simp [asSeq] at h; subst h; exact .inr rfl
  | vInt n => simp [asSeq] at h
  | vStr s => simp [asSeq] at h
  | vNone => simp [asSeq] at h

/-- Claim C3 (amended): for IN / NOT IN the compiler raises a validation error
unless the value is a list or tuple (emptiness is not checked), so every
accepted IN / NOT IN condition has a — possibly empty — list or tuple value
whose elements are exactly the contributed parameters. -/
theorem in_requires_sequence (c : QueryCondition)
    (hop : pyUpper c.operator = "IN" ∨ pyUpper c.operator = "NOT IN") :
    (asSeq c.value = none → ∃ msg, compile_condition c = .error msg) ∧
    (∀ frag ps, compile_condition c = .ok (frag, ps) →
      ∃ xs, (c.value = .vList xs ∨ c.value = .vTuple xs) ∧ ps = xs) := by
  have h1 : ¬(pyUpper c.operator = "IS NULL" ∨ pyUpper c.operator = "IS NOT NULL") := by
    rcases hop with h | h <;> rw [h] <;> decide
  rcases hop with hin | hnin
  · constructor
    · intro hnone
      refine ⟨"IN 操作符的值必须是列表或元组", ?_⟩
      unfold compile_condition
      rw [if_neg h1, if_pos hin, hnone]
    · intro frag ps h
      unfold compile_condition at h
      rw [if_neg h1, if_pos hin] at h
      cases hseq : asSeq c.value with
      | none => rw [hseq] at h; cases h
      | some xs =>
        rw [hseq] at h
        simp only [Except.ok.injEq, Prod.mk.injEq] at h
        exact ⟨xs, asSeq_eq_some _ _ hseq, h.2.symm⟩
  · have h2 : ¬ pyUpper c.operator = "IN" := by rw [hnin]; decide
    constructor
    · intro hnone
      refine ⟨"NOT IN 操作符的值必须是列表或元组", ?_⟩
      unfold compile_condition
      rw [if_neg h1, if_neg h2, if_pos hnin, hnone]
    · intro frag ps h
      unfold compile_condition at h
      rw [if_neg h1, if_neg h2, if_pos hnin] at h
      cases hseq : asSeq c.value with
      | none => rw [hseq] at h; cases h
      | some xs =>
        rw [hseq] at h
        simp only [Except.ok.injEq, Prod.mk.injEq] at h
        exact ⟨xs, asSeq_eq_some _ _ hseq, h.2.symm⟩

/-- Witness for the amended C3 at a one-element IN list. -/
theorem in_requires_sequence_witness :
    ∃ xs, ((PyVal.vList [PyVal.vInt 1]) = .vList xs ∨
      (PyVal.vList [PyVal.vInt 1]) = .vTuple xs) ∧ [PyVal.vInt 1] = xs :=
  (in_requires_sequence ⟨"f", "IN", .vList [.vInt 1], "AND"⟩
    (.inl (by decide))).2 "f IN (%s)" [.vInt 1] (by rfl)

/-- Counterexample to claim C8: a select list whose only field name is invalid
("DROP", a dangerous keyword) raises a ValueError instead of falling back to
wildcard selection with a warning. -/
theorem select_dangerous_field_raises :
    QueryBuilder.select ⟨"t", ["*"], [], [], none, none⟩ (some [.vStr "DROP"]) =
      .error "字段名 DROP 包含不安全的 SQL 关键字" := by rfl

theorem validateFields_all_blank : ∀ fs : List PyVal,
    (∀ f ∈ fs, ∃ s, f = .vStr s ∧ pyStrip s = "") → validateFields fs = .ok []
  | [], _ => rfl
  | f :: fs, h => by
    obtain ⟨s, hfs, hst⟩ := h f (List.mem_cons_self f fs)
    subst hfs
    have hstep : validateFields (.vStr s :: fs) =
        (if pyStrip s = "" then validateFields fs
          else if hasDangerousKeyword (pyStrip s) then
            .error ("字段名 " ++ pyStrip s ++ " 包含不安全的 SQL 关键字")
          else do
            let rest ← validateFields fs
            .ok (pyStrip s :: rest)) := rfl
    rw [hstep, if_pos hst]
    exact validateFields_all_blank fs fun f hf => h f (by simp [hf])

/-- Claim C8 (amended): select falls back to wildcard selection for `None`,
the empty list, and lists in which every field is a whitespace-only string
(the only fields the validator discards); dangerous or non-string fields
instead raise a ValueError. -/
theorem select_blank_fallback (b : QueryBuilder) :
    b.select none = .ok { b with select_fields := ["*"] } ∧
    b.select (some []) = .ok { b with select_fields := ["*"] } ∧
    ∀ fs : List PyVal, (∀ f ∈ fs, ∃ s, f = .vStr s ∧ pyStrip s = "") →
      b.select (some fs) = .ok { b with select_fields := ["*"] } := by
  refine ⟨rfl, rfl, ?_⟩
  intro fs hfs
  have hval := validateFields_all_blank fs hfs
  cases fs with
  | nil => rfl
  | cons f fs' =>
    simp only [QueryBuilder.select, hval, bind, Except.bind, ite_true]

/-- Witness for the amended C8 at a whitespace-only field list. -/
theorem select_blank_fallback_witness :
    QueryBuilder.select ⟨"t", ["*"], [], [], none, none⟩ (some [.vStr " "]) =
      .ok ⟨"t", ["*"], [], [], none, none⟩ := by
  have h := (select_blank_fallback ⟨"t", ["*"], [], [], none, none⟩).2.2
    [.vStr " "] (by
      intro f hf
      simp at hf
      exact ⟨" ", hf, by decide⟩)
  exact h

/-- Claim C10: `where()` normalizes case — adding a condition with `op` and
with `op.upper()` is indistinguishable (the stored operator is upper-cased on
insertion, and upper-casing is idempotent), and the stored logic connector of
the appended condition is exactly AND or OR. -/
theorem where_normalizes_case :
    (∀ (b : QueryBuilder) (field operator : String) (value : PyVal) (logic : String),
      b.whereMethod field operator value logic =
        b.whereMethod field (pyUpper operator) value logic) ∧
    (∀ (b b' : QueryBuilder) (field operator : String) (value : PyVal) (logic : String),
      b.whereMethod field operator value logic = .ok b' →
      ∃ cond : QueryCondition,
        b'.where_conditions = b.where_conditions ++ [cond] ∧
        cond.operator = pyUpper operator ∧
        (cond.logic = "AND" ∨ cond.logic = "OR")) := by
  constructor
  · intro b field operator value logic
    unfold QueryBuilder.whereMethod
    rw [pyUpper_idem]
  · intro b b' field operator value logic h
    unfold QueryBuilder.whereMethod at h
    split_ifs at h with h1 h2
    have hb' := (Except.ok.inj h).symm
    subst hb'
    exact ⟨⟨pyStrip field, pyUpper operator, value, pyStrip (pyUpper logic)⟩,
      rfl, rfl, h1⟩

/-- Witness for C10: a lower-case LIKE with a lower-case `or` connector. -/
theorem where_normalizes_case_witness :
    ∃ cond : QueryCondition,
      (⟨"t", ["*"], [⟨"a", "LIKE", .vStr "x", "OR"⟩], [], none, none⟩ :
          QueryBuilder).where_conditions =
        ([] : List QueryCondition) ++ [cond] ∧
      cond.operator = pyUpper "like" ∧
      (cond.logic = "AND" ∨ cond.logic = "OR") :=
  where_normalizes_case.2 ⟨"t", ["*"], [], [], none, none⟩
    ⟨"t", ["*"], [⟨"a", "LIKE", .vStr "x", "OR"⟩], [], none, none⟩
    "a" "like" (.vStr "x") "or" (by rfl)

/-! ### Claim C9 -/

theorem isNonNegInt_eq_false_iff (v : PyVal) :
    isNonNegInt v = false ↔
      ((∀ n : Int, v ≠ .vInt n) ∨ (∃ n : Int, v = .vInt n ∧ n < 0)) := by
  cases v with
  | vInt n =>
    constructor
    · intro h
      refine .inr ⟨n, rfl, ?_⟩
      simpa [isNonNegInt] using h
    · rintro (h | ⟨m, hm, hlt⟩)
      · exact absurd rfl (h n)
      · cases hm
        simp only [isNonNegInt, decide_eq_false_iff_not]
        omega
  | vStr s => simp [isNonNegInt]
  | vNone => simp [isNonNegInt]
  | vList xs => simp [isNonNegInt]
  | vTuple xs => simp [isNonNegInt]

/-- Claim C9: `limit(count, offset)` raises a validation error whenever the
count (or a supplied offset) is negative or not an integer; when both are
set, `build()` renders the LIMIT clause offset-first, in the fixed textual
form `LIMIT offset, count`, at the very end of the statement. -/
theorem limit_validates_and_renders_offset_first :
    (∀ (b : QueryBuilder) (count : PyVal) (off : Option PyVal),
      (((∀ n : Int, count ≠ .vInt n) ∨ (∃ n : Int, count = .vInt n ∧ n < 0)) ∨
        (∃ v, off = some v ∧
          ((∀ n : Int, v ≠ .vInt n) ∨ (∃ n : Int, v = .vInt n ∧ n < 0)))) →
      ∃ msg, b.limit count off = .error msg) ∧
    (∀ (b b' : QueryBuilder) (n m : Int),
      b.limit (.vInt n) (some (.vInt m)) = .ok b' →
      ∀ sql params, b'.build = .ok (sql, params) →
      ∃ s : String,
        sql = s ++ ("LIMIT " ++ toString m ++ ", " ++ toString n ++ ";")) := by
  constructor
  · intro b count off hbad
    by_cases hc : isNonNegInt count = true
    · rcases hbad with hcount | ⟨v, hoff, hv⟩
      · rw [(isNonNegInt_eq_false_iff count).mpr hcount] at hc
        cases hc
      · subst hoff
        refine ⟨"OFFSET 必须是大于等于 0 的整数", ?_⟩
        unfold QueryBuilder.limit
        rw [if_neg (fun hh => hh hc)]
        have hvf : isNonNegInt v = false := (isNonNegInt_eq_false_iff v).mpr hv
        rw [if_pos (by simp [pyOffsetBad, hvf])]
    · exact ⟨"LIMIT 数量必须是大于等于 0 的整数", by
        unfold QueryBuilder.limit
        rw [if_pos hc]⟩
  · intro b b' n m hlim sql params hbuild
    unfold QueryBuilder.limit at hlim
    split_ifs at hlim with h1 h2
    have hb' : b' = { b with
        limit_value := pyInt? (.vInt n),
        offset_value := (some (PyVal.vInt m)).bind pyInt? } :=
      (Except.ok.inj hlim).symm
    have hLC : limitClause b' = "LIMIT " ++ toString m ++ ", " ++ toString n := by
      rw [hb']
      rfl
    have hLCne : limitClause b' ≠ "" := by
      rw [hLC]
      apply sappend_ne_empty_of_left
      simp [String.data_append]
    have hsql : ∃ wc, sql = assembleSql b' wc := by
      cases hw : b'.where_conditions with
      | nil =>
        simp only [QueryBuilder.build, hw, Except.ok.injEq, Prod.mk.injEq] at hbuild
        exact ⟨"", hbuild.1.symm⟩
      | cons c cs =>
        simp only [QueryBuilder.build, hw] at hbuild
        cases hbw : build_where_clause (c :: cs) with
        | error e =>
          rw [hbw] at hbuild
          simp only [bind, Except.bind] at hbuild
          cases hbuild
        | ok wp =>
          obtain ⟨w, ps⟩ := wp
          rw [hbw] at hbuild
          simp only [bind, Except.bind, Except.ok.injEq, Prod.mk.injEq] at hbuild
          exact ⟨"WHERE " ++ w, hbuild.1.symm⟩
    obtain ⟨wc, rfl⟩ := hsql
    rw [assembleSql_form b' wc, if_neg hLCne, hLC]
    refine ⟨"SELECT " ++ joinSep ", " b'.select_fields ++
      (tailText (["FROM " ++ b'.table_name] ++
        ((if wc = "" then [] else [wc]) ++
          (if orderByClause b' = "" then [] else [orderByClause b']))) ++ " "), ?_⟩
    apply String.ext
    simp [tailText_cons, tailText_append, tailText_singleton, String.data_append,
      List.append_assoc]
    rfl

/-- Witness for C9: `limit(-1)` raises; `limit(10, offset=20)` renders
`LIMIT 20, 10` at the end of the SQL text. -/
theorem limit_validates_and_renders_offset_first_witness :
    (∃ msg, QueryBuilder.limit ⟨"t", ["*"], [], [], none, none⟩
      (.vInt (-1)) none = .error msg) ∧
    (∃ s : String, "SELECT * FROM t LIMIT 20, 10;" =
      s ++ ("LIMIT " ++ toString (20 : Int) ++ ", " ++ toString (10 : Int) ++ ";")) := by
  constructor
  · exact limit_validates_and_renders_offset_first.1
      ⟨"t", ["*"], [], [], none, none⟩ (.vInt (-1)) none
      (.inl (.inr ⟨-1, rfl, by decide⟩))
  · exact limit_validates_and_renders_offset_first.2
      ⟨"t", ["*"], [], [], none, none⟩
      ⟨"t", ["*"], [], [], some 10, some 20⟩ 10 20 (by rfl)
      "SELECT * FROM t LIMIT 20, 10;" none (by rfl)

/-! ### Connection management module (`database/connection.py`): claims C4-C7 -/

/-- Error taxonomy of the connection layer: the `ConnectionError` raised by
the direct connect path, driver errors (`mysql.connector.Error`, including
pool errors) re-raised unchanged, and `ValueError`. -/
inductive PyErr where
  | connectionError (msg : String)
  | dbError (msg : String)
  | valueError (msg : String)
deriving Repr, DecidableEq

/-- `DatabaseConfig` dataclass of `database/connection.py` (same defaults). -/
structure DatabaseConfig where
  host : String := "localhost"
  port : Int := 3306
  user : String := "root"
  password : String := ""
  database : Option String := none
  charset : String := "utf8mb4"
  pool_size : Int := 5
  max_overflow : Int := 10
  pool_timeout : Int := 30
  pool_recycle : Int := 3600
deriving Repr, DecidableEq

/-- Python f-string rendering of an `Optional[str]`: `None` prints as
"None". -/
def pyShowOpt : Option String → String
  | none => "None"
  | some s => s

/-- `ConnectionPool._get_pool_key`: `f"{host}:{port}:{user}:{database}"`. -/
def pool_key (config : DatabaseConfig) : String :=
  config.host ++ ":" ++ toString config.port ++ ":" ++ config.user ++ ":" ++
    pyShowOpt config.database

/-- The process-wide `ConnectionPool._pools` registry; `next_pool_id` names
the next freshly created pool instance. -/
structure PoolRegistry where
  pools : List (String × Nat)
  next_pool_id : Nat
deriving Repr, DecidableEq

/-- A fresh process: no pools created yet. -/
def emptyRegistry : PoolRegistry := ⟨[], 0⟩

/-- `ConnectionPool.get_pool`: reuse the registered pool for this config's
key, otherwise create a pool (creation is modelled as succeeding) and
register it under the key. -/
def get_pool (config : DatabaseConfig) (w : PoolRegistry) : Nat × PoolRegistry :=
  match w.pools.lookup (pool_key config) with
  | some pid => (pid, w)
  | none => (w.next_pool_id,
      ⟨w.pools ++ [(pool_key config, w.next_pool_id)], w.next_pool_id + 1⟩)

/-- A physical database connection and whether it is live. -/
structure PhysConn where
  live : Bool
deriving Repr, DecidableEq

/-- The modelled driver pool: how many connections are available to borrow. -/
structure MySQLPool where
  available : Nat
deriving Repr, DecidableEq

/-- State of a direct `DatabaseConnection`: its `_connection` field. -/
structure DirectConnState where
  conn : Option PhysConn
deriving Repr, DecidableEq

/-- `DatabaseConnection.is_connected`: `False` for no connection, else the
driver's liveness probe (probe failures also report `False`). -/
def DatabaseConnection.is_connected (s : DirectConnState) : Bool :=
  match s.conn with
  | none => false
  | some c => c.live

/-- `DatabaseConnection.connect` with the driver outcome of a fresh attempt
supplied as `netOk`: a no-op when already connected and live, otherwise a
new connection or a `ConnectionError`. -/
def DatabaseConnection.connect (netOk : Bool) (s : DirectConnState) :
    Except PyErr Unit × DirectConnState :=
  if DatabaseConnection.is_connected s = true then (.ok (), s)
  else if netOk then (.ok (), ⟨some ⟨true⟩⟩)
  else (.error (.connectionError "没有连接到MySQL"), s)

/-- `DatabaseConnection.disconnect`: closes and clears the connection only
when one is held and live (the close itself never propagates). -/
def DatabaseConnection.disconnect (s : DirectConnState) : DirectConnState :=
  if s.conn.isSome = true ∧ DatabaseConnection.is_connected s = true then ⟨none⟩
  else s

/-- State of a `PooledConnection`: its `_pool_conn` field. -/
structure PooledConnState where
  pool_conn : Option PhysConn
deriving Repr, DecidableEq

/-- `PooledConnection.is_connected`. -/
def PooledConnection.is_connected (s : PooledConnState) : Bool :=
  match s.pool_conn with
  | none => false
  | some c => c.live

/-- `ConnectionPool.get_connection` against the modelled driver pool: borrow
a live connection, or re-raise the driver's pool error when exhausted. -/
def ConnectionPool.get_connection (w : MySQLPool) :
    Except PyErr PhysConn × MySQLPool :=
  if w.available = 0 then
    (.error (.dbError "Failed getting connection from pool"), w)
  else (.ok ⟨true⟩, ⟨w.available - 1⟩)

/-- `ConnectionPool.return_connection`: closing a borrowed connection returns
it to the pool; a dead connection is skipped. -/
def ConnectionPool.return_connection (conn : PhysConn) (w : MySQLPool) : MySQLPool :=
  if conn.live then ⟨w.available + 1⟩ else w

/-- `PooledConnection.connect`: a no-op whenever a pool connection is
currently held (live or not); only with none held does it borrow. -/
def PooledConnection.connect (s : PooledConnState) (w : MySQLPool) :
    Except PyErr Unit × PooledConnState × MySQLPool :=
  match s.pool_conn with
  | some _ => (.ok (), s, w)
  | none =>
    match ConnectionPool.get_connection w with
    | (.ok c, w') => (.ok (), ⟨some c⟩, w')
    | (.error e, w') => (.error e, s, w')

/-- `PooledConnection.disconnect`: return the held connection, if any. -/
def PooledConnection.disconnect (s : PooledConnState) (w : MySQLPool) :
    PooledConnState × MySQLPool :=
  match s.pool_conn with
  | none => (s, w)
  | some c => (⟨none⟩, ConnectionPool.return_connection c w)

/-- `get_db_context` with the default pooled connection: `connect()` runs
inside the `try`, then the body, and `disconnect()` runs in the `finally`
on every exit path; the body is a pure outcome (queries borrow no further
pool connections). -/
def get_db_context {α : Type} (body : Except PyErr α) (w : MySQLPool) :
    Except PyErr α × PooledConnState × MySQLPool :=
  match PooledConnection.connect ⟨none⟩ w with
  | (.error e, s1, w1) =>
    let r := PooledConnection.disconnect s1 w1
    (.error e, r.1, r.2)
  | (.ok _, s1, w1) =>
    let r := PooledConnection.disconnect s1 w1
    (body, r.1, r.2)

/-- The `with` bracket of the direct connection: `__enter__` calls
`connect()`, `__exit__` calls `disconnect()` and returns `False`, so the
body's exception propagates after the release. -/
def with_database_connection {α : Type} (body : Except PyErr α) (netOk : Bool)
    (s : DirectConnState) : Except PyErr α × DirectConnState :=
  match DatabaseConnection.connect netOk s with
  | (.error e, s1) => (.error e, s1)
  | (.ok _, s1) => (body, DatabaseConnection.disconnect s1)

/-- Connection-level operations performed by `execute_update`, in order. -/
inductive DBEvent where
  | evExec
  | evCommit
  | evRollback
  | evCloseCursor
deriving Repr, DecidableEq

/-- `DatabaseConnection.execute_update` control flow: lazily connect, execute
the statement, read the row count and commit on success; on a statement (or
commit) error, roll back on the connection in the `except` block and
re-raise the same error; the cursor is closed in the `finally`.  Driver
outcomes are parameters; the event list records the order of operations. -/
def execute_update (connected : Bool) (connectOk : Bool)
    (execResult : Except PyErr Nat) (commitOk : Bool) :
    Except PyErr Nat × List DBEvent :=
  if connected = false ∧ connectOk = false then
    (.error (.connectionError "没有连接到MySQL"), [])
  else
    match execResult with
    | .error e => (.error e, [.evExec, .evRollback, .evCloseCursor])
    | .ok affected_rows =>
      if commitOk then
        (.ok affected_rows, [.evExec, .evCommit, .evCloseCursor])
      else
        (.error (.dbError "commit 失败"),
          [.evExec, .evCommit, .evRollback, .evCloseCursor])

/-- Counterexample to claim C4: a config whose database is `None` and one
whose database is the literal string "None" have different database fields,
yet obtain the same pool instance — the registry key renders the database by
string formatting, so the two collide. -/
theorem get_pool_none_database_collision :
    (({ database := none } : DatabaseConfig).database ≠
      ({ database := some "None" } : DatabaseConfig).database) ∧
    (get_pool { database := some "None" }
        (get_pool { database := none } emptyRegistry).2).1 =
      (get_pool { database := none } emptyRegistry).1 := by
  constructor
  · decide
  · rfl

/-- Claim C4 (amended): two configs with equal (host, port, user, database)
always share one pool, even if every other field differs; and from a fresh
registry, equal host/port/user with two distinct string databases yields two
distinct pools (the None / "None" rendering collision of the counterexample
is the exception the formatting-based key admits). -/
theorem get_pool_registry_key_behaviour :
    (∀ (c1 c2 : DatabaseConfig) (w : PoolRegistry),
      c1.host = c2.host → c1.port = c2.port → c1.user = c2.user →
      c1.database = c2.database →
      (get_pool c2 (get_pool c1 w).2).1 = (get_pool c1 w).1) ∧
    (∀ (c1 c3 : DatabaseConfig) (d1 d3 : String),
      c1.host = c3.host → c1.port = c3.port → c1.user = c3.user →
      c1.database = some d1 → c3.database = some d3 → d1 ≠ d3 →
      (get_pool c3 (get_pool c1 emptyRegistry).2).1 ≠
        (get_pool c1 emptyRegistry).1) := by
  constructor
  · intro c1 c2 w hh hp hu hd
    have hkey : pool_key c2 = pool_key c1 := by
      unfold pool_key
      rw [hh, hp, hu, hd]
    unfold get_pool
    rw [hkey]
    cases hl : w.pools.lookup (pool_key c1) with
    | some pid => simp [hl]
    | none => simp [hl, List.lookup_append, List.lookup]
  · intro c1 c3 d1 d3 hh hp hu hd1 hd3 hne
    have hkey : pool_key c1 ≠ pool_key c3 := by
      intro heq
      apply hne
      have hd := congrArg String.data heq
      unfold pool_key at hd
      rw [hh, hp, hu, hd1, hd3] at hd
      simp only [pyShowOpt, String.data_append, List.append_assoc] at hd
      apply String.ext
      exact List.append_cancel_left
        (List.append_cancel_left (List.append_cancel_left
          (List.append_cancel_left (List.append_cancel_left
            (List.append_cancel_left hd)))))
    have h1st : get_pool c1 emptyRegistry = (0, ⟨[(pool_key c1, 0)], 1⟩) := rfl
    rw [h1st]
    have h2nd : ([(pool_key c1, 0)] : List (String × Nat)).lookup (pool_key c3)
        = none := by
      have hb : (pool_key c3 == pool_key c1) = false :=
        beq_eq_false_iff_ne.mpr fun hh2 => hkey hh2.symm
      simp [List.lookup, hb]
    simp [get_pool, h2nd]

/-- Witness for the amended C4: a config differing only in password shares
the pool; two string databases differ, giving distinct pools. -/
theorem get_pool_registry_key_behaviour_witness :
    (get_pool { password := "x" } (get_pool {} emptyRegistry).2).1 =
      (get_pool {} emptyRegistry).1 ∧
    (get_pool { database := some "b" }
        (get_pool { database := some "a" } emptyRegistry).2).1 ≠
      (get_pool { database := some "a" } emptyRegistry).1 := by
  constructor
  · exact get_pool_registry_key_behaviour.1 {} { password := "x" }
      emptyRegistry rfl rfl rfl rfl
  · exact get_pool_registry_key_behaviour.2 { database := some "a" }
      { database := some "b" } "a" "b" rfl rfl rfl rfl rfl (by decide)

/-- Claim C5: the scoped connection bracket releases the connection on every
exit path.  For `get_db_context` (pooled, the default) the final state holds
no pool connection, the pool's available count is restored, and with a
connection available the body's outcome — success or exception — is
propagated after the release; for the direct connection used as a context
manager, a successful `__enter__` guarantees the bracket ends disconnected
while the body's outcome propagates. -/
theorem scoped_connection_always_released :
    (∀ (α : Type) (body : Except PyErr α) (w : MySQLPool),
      (get_db_context body w).2.1.pool_conn = none ∧
      (get_db_context body w).2.2.available = w.available ∧
      (0 < w.available → (get_db_context body w).1 = body)) ∧
    (∀ (α : Type) (body : Except PyErr α) (netOk : Bool) (s : DirectConnState),
      (DatabaseConnection.connect netOk s).1 = .ok () →
      with_database_connection body netOk s = (body, ⟨none⟩)) := by
  constructor
  · intro α body w
    by_cases havail : w.available = 0
    · refine ⟨?_, ?_, ?_⟩
      · simp [get_db_context, PooledConnection.connect,
          ConnectionPool.get_connection, PooledConnection.disconnect, havail]
      · simp [get_db_context, PooledConnection.connect,
          ConnectionPool.get_connection, PooledConnection.disconnect, havail]
      · intro hpos
        omega
    · refine ⟨?_, ?_, ?_⟩
      · simp [get_db_context, PooledConnection.connect,
          ConnectionPool.get_connection, PooledConnection.disconnect,
          ConnectionPool.return_connection, havail]
      · simp [get_db_context, PooledConnection.connect,
          ConnectionPool.get_connection, PooledConnection.disconnect,
          ConnectionPool.return_connection, havail]
        omega
      · intro hpos
        simp [get_db_context, PooledConnection.connect,
          ConnectionPool.get_connection, PooledConnection.disconnect,
          ConnectionPool.return_connection, havail]
  · intro α body netOk s hconn
    unfold with_database_connection
    by_cases hlive : DatabaseConnection.is_connected s = true
    · have hc : DatabaseConnection.connect netOk s = (.ok (), s) := by
        unfold DatabaseConnection.connect
        rw [if_pos hlive]
      rw [hc]
      have hsome : s.conn.isSome = true := by
        unfold DatabaseConnection.is_connected at hlive
        cases hs : s.conn with
        | none => rw [hs] at hlive; cases hlive
        | some c => rfl
      have hd : DatabaseConnection.disconnect s = ⟨none⟩ := by
        unfold DatabaseConnection.disconnect
        rw [if_pos ⟨hsome, hlive⟩]
      show (body, DatabaseConnection.disconnect s) = (body, ⟨none⟩)
      rw [hd]
    · cases hnet : netOk with
      | false =>
        unfold DatabaseConnection.connect at hconn
        rw [if_neg hlive, hnet] at hconn
        simp at hconn
      | true =>
        have hc : DatabaseConnection.connect true s = (.ok (), ⟨some ⟨true⟩⟩) := by
          unfold DatabaseConnection.connect
          rw [if_neg hlive, if_pos rfl]
        rw [hc]
        show (body, DatabaseConnection.disconnect ⟨some ⟨true⟩⟩) = (body, ⟨none⟩)
        rfl

/-- Witness for C5: a raising body on a pooled bracket leaves the pool count
intact and the connection released; the direct bracket with a raising body
ends disconnected with the error propagated. -/
theorem scoped_connection_always_released_witness :
    (get_db_context (Except.error (.dbError "boom") : Except PyErr Nat)
      ⟨2⟩).2.1.pool_conn = none ∧
    (get_db_context (Except.error (.dbError "boom") : Except PyErr Nat)
      ⟨2⟩).2.2.available = 2 ∧
    (get_db_context (Except.error (.dbError "boom") : Except PyErr Nat) ⟨2⟩).1 =
      Except.error (.dbError "boom") ∧
    with_database_connection (Except.error (.dbError "boom") : Except PyErr Nat)
      true ⟨none⟩ = (Except.error (.dbError "boom"), ⟨none⟩) := by
  have h1 := (scoped_connection_always_released.1 Nat
    (Except.error (.dbError "boom")) ⟨2⟩)
  exact ⟨h1.1, h1.2.1, h1.2.2 (by decide),
    scoped_connection_always_released.2 Nat (Except.error (.dbError "boom"))
      true ⟨none⟩ (by rfl)⟩

/-- Claim C6: on success `execute_update` commits and returns the
affected-row count (no rollback); on statement failure it rolls back on the
connection — and never commits — before propagating the very same error, and
the cursor is closed either way. -/
theorem execute_update_commits_or_rolls_back
    (connected connectOk : Bool) (execResult : Except PyErr Nat) (commitOk : Bool)
    (hconn : connected = true ∨ connectOk = true) :
    (∀ n, execResult = .ok n → commitOk = true →
      execute_update connected connectOk execResult commitOk =
        (.ok n, [.evExec, .evCommit, .evCloseCursor])) ∧
    (∀ e, execResult = .error e →
      execute_update connected connectOk execResult commitOk =
        (.error e, [.evExec, .evRollback, .evCloseCursor])) := by
  have hc : ¬(connected = false ∧ connectOk = false) := by
    rcases hconn with h | h <;> simp [h]
  constructor
  · intro n he hcm
    subst he; subst hcm
    unfold execute_update
    rw [if_neg hc]
    simp
  · intro e he
    subst he
    unfold execute_update
    rw [if_neg hc]

/-- Witness for C6: a successful update commits and returns 3; a failing
statement rolls back and propagates the driver error. -/
theorem execute_update_commits_or_rolls_back_witness :
    execute_update true true (.ok 3) true =
      (.ok 3, [.evExec, .evCommit, .evCloseCursor]) ∧
    execute_update true true (.error (.dbError "Duplicate entry")) true =
      (.error (.dbError "Duplicate entry"),
        [.evExec, .evRollback, .evCloseCursor]) :=
  ⟨(execute_update_commits_or_rolls_back true true (.ok 3) true
      (.inl rfl)).1 3 rfl rfl,
    (execute_update_commits_or_rolls_back true true
      (.error (.dbError "Duplicate entry")) true (.inl rfl)).2
      (.dbError "Duplicate entry") rfl⟩

/-- Counterexample to claim C7: a pooled handle that holds a dead pool
connection is not "connected and verified live", yet `connect()` is a
no-op — it borrows nothing even though the pool has connections available,
contradicting "otherwise opens or borrows a connection". -/
theorem pooled_connect_noop_on_dead_connection :
    PooledConnection.is_connected ⟨some ⟨false⟩⟩ = false ∧
    PooledConnection.connect ⟨some ⟨false⟩⟩ ⟨3⟩ =
      (.ok (), ⟨some ⟨false⟩⟩, ⟨3⟩) := by
  constructor <;> rfl

/-- Claim C7 (amended): the direct `connect()` is exactly as claimed — a
no-op when connected and verified live, otherwise opening a connection and
failing with ConnectionError on network/auth failure; the pooled `connect()`
is instead a no-op whenever a pool connection is held (even a dead one),
borrows only when none is held, and propagates the pool's own driver error —
not ConnectionError — on exhaustion. -/
theorem connect_idempotent_amended :
    (∀ (netOk : Bool) (s : DirectConnState),
      DatabaseConnection.is_connected s = true →
      DatabaseConnection.connect netOk s = (.ok (), s)) ∧
    (∀ s : DirectConnState, DatabaseConnection.is_connected s = false →
      DatabaseConnection.connect true s = (.ok (), ⟨some ⟨true⟩⟩) ∧
      DatabaseConnection.connect false s =
        (.error (.connectionError "没有连接到MySQL"), s)) ∧
    (∀ (s : PooledConnState) (w : MySQLPool) (c : PhysConn),
      s.pool_conn = some c →
      PooledConnection.connect s w = (.ok (), s, w)) ∧
    (∀ w : MySQLPool,
      (w.available = 0 →
        PooledConnection.connect ⟨none⟩ w =
          (.error (.dbError "Failed getting connection from pool"), ⟨none⟩, w)) ∧
      (0 < w.available →
        PooledConnection.connect ⟨none⟩ w =
          (.ok (), ⟨some ⟨true⟩⟩, ⟨w.available - 1⟩))) := by
  refine ⟨?_, ?_, ?_, ?_⟩
  · intro netOk s hlive
    unfold DatabaseConnection.connect
    rw [if_pos hlive]
  · intro s hdead
    constructor
    · unfold DatabaseConnection.connect
      rw [if_neg (by rw [hdead]; exact Bool.false_ne_true), if_pos rfl]
    · unfold DatabaseConnection.connect
      rw [if_neg (by rw [hdead]; exact Bool.false_ne_true), if_neg (by decide)]
  · intro s w c hs
    unfold PooledConnection.connect
    rw [hs]
  · intro w
    constructor
    · intro h0
      unfold PooledConnection.connect ConnectionPool.get_connection
      rw [if_pos h0]
    · intro hpos
      unfold PooledConnection.connect ConnectionPool.get_connection
      rw [if_neg (by omega)]

/-- Witness for the amended C7 at concrete states: live no-op, failing open,
held-connection no-op, exhausted-pool error, and a successful borrow. -/
theorem connect_idempotent_amended_witness :
    DatabaseConnection.connect false ⟨some ⟨true⟩⟩ = (.ok (), ⟨some ⟨true⟩⟩) ∧
    DatabaseConnection.connect false ⟨none⟩ =
      (.error (.connectionError "没有连接到MySQL"), ⟨none⟩) ∧
    PooledConnection.connect ⟨some ⟨true⟩⟩ ⟨1⟩ = (.ok (), ⟨some ⟨true⟩⟩, ⟨1⟩) ∧
    PooledConnection.connect ⟨none⟩ ⟨0⟩ =
      (.error (.dbError "Failed getting connection from pool"), ⟨none⟩, ⟨0⟩) ∧
    PooledConnection.connect ⟨none⟩ ⟨2⟩ = (.ok (), ⟨some ⟨true⟩⟩, ⟨1⟩) :=
  ⟨connect_idempotent_amended.1 false ⟨some ⟨true⟩⟩ rfl,
    (connect_idempotent_amended.2.1 ⟨none⟩ rfl).2,
    connect_idempotent_amended.2.2.1 ⟨some ⟨true⟩⟩ ⟨1⟩ ⟨true⟩ rfl,
    (connect_idempotent_amended.2.2.2 ⟨0⟩).1 rfl,
    (connect_idempotent_amended.2.2.2 ⟨2⟩).2 (by decide)⟩

end LvJing
